import Mathlib

/-!
# win32-wmf-webcam: frame converter and frame pumps

A shallow embedding of the two programs of the repository

* `01 - NDI Async Output/main.cpp` (the network-sink program), and
* `02 - DX11 Texture Output/main.cpp` (the shared-texture program),

followed by theorems about the embedded code.

Conventions of the embedding.

* A C buffer is a function from byte offsets (relative to the pointer the code
  holds) to bytes; pointer arithmetic is addition of offsets.  Addresses are
  64 bits wide and are not reduced; the 32-bit index arithmetic of the source
  (`UINT`, `LONG`, `DWORD`) is reduced modulo `2^32` at every operation.
* Source and destination of a copy are different buffers, and every buffer is
  an address space of its own: what C++ leaves undefined (a write outside an
  allocation, a race with the asynchronous sender) is outside the model.
* Calls into Media Foundation, NDI and Direct3D are answered by an explicit
  environment (a record of results, or a list with one entry per loop
  iteration); the calls a program makes are recorded as a list of events.
-/

namespace WebcamApp

/-! ## Machine integers and memory -/

/-- One byte of a buffer (`BYTE`, `uint8_t`). -/
abbrev BYTE := UInt8

/-- A buffer seen through a pointer: offset to byte. -/
abbrev Mem := Nat → BYTE

/-- Number of values of a 32-bit `UINT` / `DWORD`. -/
def UINT_MOD : Nat := 4294967296

/-- Number of values of a 64-bit `size_t`. -/
def SIZE_MOD : Nat := 18446744073709551616

/-- The product `y * pitch` of a `UINT` and a `LONG`: both operands are
converted to 32-bit unsigned and the product is reduced modulo `2^32`. -/
def mulUintLong (y : Nat) (pitch : Int) : Nat :=
  (((y : Int) * pitch) % (UINT_MOD : Int)).toNat

/-! ## The converter `YUY2ToUYVYWithPitch` (01, lines 296-309) -/

/-- One executed assignment `destRow[i] = srcRow[j]`: the row `y` in which it
ran, the destination offset written and the source offset read (offsets
relative to `destData` and `srcData`). -/
structure Copy where
  row : Nat
  destOff : Nat
  srcOff : Nat
  deriving DecidableEq, Repr

/-- State of a conversion: the destination buffer and the assignments executed
so far, most recent first. -/
structure ConvState where
  dest : Mem
  log : List Copy

/-- The assignment `destRow[i] = srcRow[j]` with `destRow = destData + destRow`
and `srcRow = srcData + srcRow`. -/
def ConvState.assign (st : ConvState) (srcData : Mem) (y destRow srcRow i j : Nat) :
    ConvState :=
  { dest := fun a => if a = destRow + i then srcData (srcRow + j) else st.dest a
    log := ⟨y, destRow + i, srcRow + j⟩ :: st.log }

/-- Body of the inner loop for one value of `x` (lines 302-306). -/
def pixelPair (srcData : Mem) (y destRow srcRow x : Nat) (st : ConvState) : ConvState :=
  let idx := (x * 2) % UINT_MOD
  let st := st.assign srcData y destRow srcRow idx ((idx + 1) % UINT_MOD)
  let st := st.assign srcData y destRow srcRow ((idx + 1) % UINT_MOD) idx
  let st := st.assign srcData y destRow srcRow ((idx + 2) % UINT_MOD) ((idx + 3) % UINT_MOD)
  st.assign srcData y destRow srcRow ((idx + 3) % UINT_MOD) ((idx + 2) % UINT_MOD)

/-- The inner loop `for (UINT x = ...; x < width; x += 2)` (line 301), started
at `x`.  `fuel` bounds the number of condition tests; `none` means the bound
was reached. -/
def rowLoop (srcData : Mem) (width y destRow srcRow : Nat) :
    Nat → Nat → ConvState → Option ConvState
  | 0, _, _ => none
  | fuel + 1, x, st =>
    if x < width then
      rowLoop srcData width y destRow srcRow fuel ((x + 2) % UINT_MOD)
        (pixelPair srcData y destRow srcRow x st)
    else some st

/-- The outer loop `for (UINT y = ...; y < height; ++y)` (lines 297-308),
started at `y`.  Each inner loop gets the budget `UINT_MOD`, which it exhausts
only when it does not terminate. -/
def frameLoop (srcData : Mem) (width height : Nat) (pitch : Int) :
    Nat → Nat → ConvState → Option ConvState
  | 0, _, _ => none
  | fuel + 1, y, st =>
    if y < height then
      let srcRow := mulUintLong y pitch
      let destRow := (((y * width) % UINT_MOD) * 2) % UINT_MOD
      match rowLoop srcData width y destRow srcRow UINT_MOD 0 st with
      | none => none
      | some st => frameLoop srcData width height pitch fuel ((y + 1) % UINT_MOD) st
    else some st

/-- `YUY2ToUYVYWithPitch(srcData, destData, width, height, pitch)`.  The budget
`UINT_MOD` covers every terminating run of either loop (at most `2^32` tests of
`y < height`, at most `2^31 + 1` tests of `x < width`); `none` means that the
call does not return. -/
def YUY2ToUYVYWithPitch (srcData destData : Mem) (width height : Nat) (pitch : Int) :
    Option ConvState :=
  frameLoop srcData width height pitch UINT_MOD 0 ⟨destData, []⟩

/-- Source bytes of the 1280x720 scenario: the first macropixel is
`10 80 20 90`, every other byte is zero. -/
def scenarioSrc : Mem := fun a =>
  if a = 0 then 0x10 else if a = 1 then 0x80 else if a = 2 then 0x20
  else if a = 3 then 0x90 else 0

/-- Source buffer that is zero except for one byte at offset
`3 * 2147483647 + 1`. -/
def farSrc : Mem := fun a => if a = 6442450942 then 1 else 0

/-- A buffer of zero bytes. -/
def zeroMem : Mem := fun _ => 0

/-! ## Specification-side functions for the converter -/

/-- Offset of the byte that trades places with byte `j` of a row: bytes `2i`
and `2i + 1` trade places. -/
def swapOff (j : Nat) : Nat := if j % 2 = 0 then j + 1 else j - 1

/-- State of a conversion whose writes have reached destination offset `F`:
the destination holds converted bytes below `F` and its old bytes from `F` on,
every logged assignment lies below `F` and pairs the right offsets, and every
offset below `F` has been assigned. -/
def ConvInv (srcData destData : Mem) (width : Nat) (pitch : Int) (F : Nat)
    (st : ConvState) : Prop :=
  (∀ a, st.dest a =
    if a < F then
      srcData (mulUintLong (a / (width * 2)) pitch + swapOff (a % (width * 2)))
    else destData a) ∧
  (∀ e ∈ st.log, e.destOff < F ∧ e.row = e.destOff / (width * 2) ∧
    e.srcOff = mulUintLong e.row pitch + swapOff (e.destOff % (width * 2))) ∧
  (∀ a, a < F → ∃ e ∈ st.log, e.destOff = a)

/-- What holds of a conversion at every frame size: each logged assignment
belongs to a row below `height`, writes at the start offset of its destination
row (as the code computes it, reduced modulo `2^32`) plus an offset below
`width * 2`, and reads at the start offset of its source row (as the code
computes it) plus an offset below `width * 2`; destination bytes at or beyond
`height * (width * 2)` have their old value. -/
def ConvSafe (destData : Mem) (width height : Nat) (pitch : Int) (st : ConvState) : Prop :=
  (∀ e ∈ st.log, e.row < height ∧
    ∃ j j', j < width * 2 ∧ j < UINT_MOD ∧ j' < width * 2 ∧
      e.destOff = (((e.row * width) % UINT_MOD) * 2) % UINT_MOD + j ∧
      e.srcOff = mulUintLong e.row pitch + j') ∧
  (∀ a, height * (width * 2) ≤ a → st.dest a = destData a)

/-! ## Events and environment shared by the two programs -/

/-- Which pointer a `BYTE*` holds: `NULL` or one of the two scratch buffers of
the network-sink program. -/
inductive BufPtr where
  | null
  | buffer1_
  | buffer2_
  deriving DecidableEq, Repr

/-- Pixel format tag of an NDI video frame.  `NDIlib_FourCC_type_UYVY` is the
only tag the program names; `unset` stands for any other value. -/
inductive FourCC where
  | NDIlib_FourCC_type_UYVY
  | unset
  deriving DecidableEq, Repr

/-- Conversion of a `UINT` value to `int`. -/
def toInt32 (n : Nat) : Int :=
  if n % UINT_MOD < 2147483648 then ((n % UINT_MOD : Nat) : Int)
  else ((n % UINT_MOD : Nat) : Int) - (UINT_MOD : Int)

/-- Modelled from the spec: the declaration of `NDIlib_video_frame_v2_t` is in
`inc/Processing.NDI.Lib.h`, which is not among the sources.  The fields are
those of the spec's PublishRequest, under the names with which the program
assigns them (01, lines 282-287, 375, 379); the numeric fields are `int`. -/
structure NDIlib_video_frame_v2_t where
  xres : Int
  yres : Int
  FourCC : FourCC
  frame_rate_N : Int
  frame_rate_D : Int
  line_stride_in_bytes : Int
  p_data : BufPtr
  deriving DecidableEq, Repr

/-- A call a program makes, or a line it prints.  Calls inside a run loop carry
the number of the loop iteration (counted from 0) in which they are made. -/
inductive Event where
  | cerr (msg : String)
  | cout (msg : String)
  | MFStartup
  | MFCreateAttributes
  | SetGUID
  | MFEnumDeviceSources
  | CoTaskMemFree
  | GetAllocatedString (i : Nat)
  | ActivateObject
  | MFCreateSourceReaderFromMediaSource
  | CleanupActivateArray
  | GetCurrentMediaType
  | MFGetAttributeSize
  | GetGUID
  | SetCurrentMediaType
  | SetStreamSelection
  | MFShutdown
  | dupenv_s
  | LoadLibraryA
  | GetProcAddress
  | FreeLibrary
  | NDIlib_v5_load
  | NDIlib_init
  | send_create
  | aligned_malloc (p : BufPtr) (size : Nat)
  | aligned_free (p : BufPtr)
  | send_send_video_async_v2 (iter : Nat) (frame : NDIlib_video_frame_v2_t)
  | send_send_video_async_v2_NULL
  | send_destroy
  | ndi_destroy
  | D3D11CreateDevice
  | QueryInterface_ID3D11Device5
  | QueryInterface_ID3D11DeviceContext4
  | CreateTexture2D1_staging
  | CreateTexture2D1_shared
  | GetSharedTextureHandle
  | GetAsyncKeyState (iter : Nat)
  | ReadSample (iter : Nat)
  | ConvertToContiguousBuffer (iter : Nat)
  | As_IMF2DBuffer2 (iter : Nat)
  | Lock2DSize (iter : Nat)
  | YUY2ToUYVYWithPitch (iter : Nat) (destData : BufPtr)
  | Unlock2D (iter : Nat)
  | Map (iter : Nat)
  | memcpy (iter : Nat) (count : Nat)
  | Unmap (iter : Nat)
  | CopyResource (iter : Nat)
  deriving DecidableEq, Repr

/-- What the calls on one delivered `IMFSample` answer. -/
structure Sample where
  /-- `ConvertToContiguousBuffer` succeeds. -/
  contiguous_ok : Bool
  /-- `buffer.As(&pBuffer2D2)` succeeds. -/
  as2D_ok : Bool
  /-- `Lock2DSize` succeeds. -/
  lock_ok : Bool
  /-- Second argument of `Lock2DSize` (`&srcData`): the memory at scanline 0. -/
  srcData : Mem
  /-- Third argument of `Lock2DSize` (`&pitch`). -/
  pitch : Int
  /-- Fourth argument of `Lock2DSize` (`&pScanline0`): the memory at the start
  of the buffer. -/
  pScanline0 : Mem

/-- What one call of `ReadSample` answers. -/
structure ReadResult where
  /-- `SUCCEEDED(hr)`. -/
  hr_ok : Bool
  /-- `flags & MF_SOURCE_READERF_ENDOFSTREAM` is non-zero. -/
  endOfStream : Bool
  /-- The sample stored through `sample.GetAddressOf()`; `none` is a null
  pointer. -/
  sample : Option Sample

/-- Why a run loop was left; `none` in a state means the loop has not been left
(it waits in `ReadSample` for a result the environment has not given). -/
inductive Break where
  | readFailed
  | endOfStream
  | contiguousFailed
  | lockFailed
  | mapFailed
  | escapeKey
  deriving DecidableEq, Repr

/-- What the calls of `SetupCapture` answer. -/
structure CaptureEnv where
  MFCreateAttributes_ok : Bool
  SetGUID_ok : Bool
  MFEnumDeviceSources_ok : Bool
  count : Nat
  GetAllocatedString_ok : Nat → Bool
  ActivateObject_ok : Bool
  MFCreateSourceReaderFromMediaSource_ok : Bool
  GetCurrentMediaType_ok : Bool
  MFGetAttributeSize_ok : Bool
  width : Nat
  height : Nat
  GetGUID_ok : Bool
  /-- The subtype GUID stored in `format`. -/
  format : Nat
  SetCurrentMediaType_ok : Bool
  SetStreamSelection_ok : Bool

/-- The loop over the devices in `SetupCapture` that prints their names (lines
139-151 of 01); a printed line is cut down to its constant text. -/
def printFriendlyNames (env : CaptureEnv) : List Event :=
  (List.range env.count).flatMap fun i =>
    if env.GetAllocatedString_ok i then [.GetAllocatedString i, .cout "Device"]
    else [.GetAllocatedString i, .cerr "Failed to get friendly name for device "]

/-! ## The network-sink program (`01 - NDI Async Output/main.cpp`) -/

namespace NDI

/-- What the calls of `SetupNDI` answer. -/
structure NDIEnv where
  /-- `_dupenv_s` returns 0 and stores a non-null string. -/
  dupenv_ok : Bool
  /-- `LoadLibraryA` returns a non-null module. -/
  LoadLibraryA_ok : Bool
  /-- `GetProcAddress` returns a non-null function. -/
  GetProcAddress_ok : Bool
  /-- `ndiLib_v5_->initialize()` returns true. -/
  initialize_ok : Bool
  /-- `send_create` returns a non-null sender. -/
  send_create_ok : Bool

/-- What the calls of `Initialize` answer.  `_aligned_malloc` is taken to
succeed; `malloc1` and `malloc2` are the bytes found in the fresh blocks. -/
structure Env where
  MFStartup_ok : Bool
  capture : CaptureEnv
  ndi : NDIEnv
  malloc1 : Mem
  malloc2 : Mem

/-- The data members of `class WebcamApp` that the claims are about, the events
so far (`trace`) and, for each call of `send_send_video_async_v2` in `Run`, the
bytes found behind `p_data` at the time of the call (`sent`). -/
structure App where
  width_ : Nat
  height_ : Nat
  ndi_video_frame_ : NDIlib_video_frame_v2_t
  buffer1_ : Mem
  buffer2_ : Mem
  trace : List Event
  sent : List Mem

/-- Record one event. -/
def App.emit (app : App) (e : Event) : App :=
  { app with trace := app.trace ++ [e] }

/-- Print `msg` on `std::cerr` and `return false`. -/
def App.fail (app : App) (msg : String) : Bool × App :=
  (false, app.emit (.cerr msg))

/-- The memory a buffer pointer of the program points to. -/
def App.deref (app : App) : BufPtr → Mem
  | .null => fun _ => 0
  | .buffer1_ => app.buffer1_
  | .buffer2_ => app.buffer2_

/-- `WebcamApp::SetupMediaFoundation` (lines 79-86). -/
def SetupMediaFoundation (env : Env) (app : App) : Bool × App :=
  let app := app.emit .MFStartup
  if !env.MFStartup_ok then app.fail "Failed to initialize Media Foundation."
  else (true, app)

/-- `WebcamApp::SetupCapture` (lines 116-207). -/
def SetupCapture (env : CaptureEnv) (app : App) : Bool × App :=
  let app := app.emit .MFCreateAttributes
  if !env.MFCreateAttributes_ok then app.fail "Failed to create IMFAttributes." else
  let app := app.emit .SetGUID
  if !env.SetGUID_ok then app.fail "Failed to set device source attribute." else
  let app := app.emit .MFEnumDeviceSources
  if !env.MFEnumDeviceSources_ok || env.count == 0 then
    (false, (app.emit (.cerr "Failed to enumerate video capture devices.")).emit
      .CoTaskMemFree)
  else
  let app := { app with trace := app.trace ++ printFriendlyNames env }
  let app := app.emit .ActivateObject
  if !env.ActivateObject_ok || env.count == 0 then
    (false, (app.emit (.cerr "Failed to activate IMFMediaSource.")).emit
      .CleanupActivateArray)
  else
  let app := app.emit .MFCreateSourceReaderFromMediaSource
  if !env.MFCreateSourceReaderFromMediaSource_ok then
    (false, (app.emit (.cerr "Failed to create IMFSourceReader from IMFMediaSource.")).emit
      .CleanupActivateArray)
  else
  let app := app.emit .CleanupActivateArray
  let app := app.emit .GetCurrentMediaType
  if !env.GetCurrentMediaType_ok then app.fail "Failed to get current media type." else
  let app := app.emit .MFGetAttributeSize
  if !env.MFGetAttributeSize_ok then app.fail "Failed to get video frame size." else
  let app := { app with width_ := env.width % UINT_MOD, height_ := env.height % UINT_MOD }
  let app := app.emit .GetGUID
  if !env.GetGUID_ok then app.fail "Failed to get format." else
  let app := app.emit .SetCurrentMediaType
  if !env.SetCurrentMediaType_ok then app.fail "Failed to set video output format" else
  let app := app.emit .SetStreamSelection
  if !env.SetStreamSelection_ok then app.fail "Failed to enable video stream" else
  (true, app)

/-- `WebcamApp::LoadNDIRuntime` (lines 229-266). -/
def LoadNDIRuntime (env : NDIEnv) (app : App) : Bool × App :=
  let app := app.emit .dupenv_s
  if !env.dupenv_ok then
    (false, (app.emit (.cerr "Failed to detect a valida NDI5 installation folder.")).emit
      (.cerr "Error: "))
  else
  let app := app.emit .LoadLibraryA
  let app := if env.LoadLibraryA_ok then app.emit .GetProcAddress else app
  if !(env.LoadLibraryA_ok && env.GetProcAddress_ok) then
    let app := if env.LoadLibraryA_ok then app.emit .FreeLibrary else app
    app.fail "NDI5 detected however a valid library could not be loaded."
  else (true, app.emit .NDIlib_v5_load)

/-- `WebcamApp::CreateNDISender` (lines 268-279). -/
def CreateNDISender (env : NDIEnv) (app : App) : Bool × App :=
  let app := app.emit .send_create
  if !env.send_create_ok then app.fail "Could not created NDI sender 'webcam_to_ndi'"
  else (true, app)

/-- `WebcamApp::InitializeNDIFrame` (lines 281-288). -/
def InitializeNDIFrame (app : App) : App :=
  { app with ndi_video_frame_ :=
    { app.ndi_video_frame_ with
      FourCC := .NDIlib_FourCC_type_UYVY
      xres := toInt32 app.width_
      yres := toInt32 app.height_
      line_stride_in_bytes := toInt32 ((app.width_ * 2) % UINT_MOD)
      frame_rate_D := 1000
      frame_rate_N := 60000 } }

/-- `WebcamApp::SetupNDI` (lines 209-227). -/
def SetupNDI (env : NDIEnv) (app : App) : Bool × App :=
  match LoadNDIRuntime env app with
  | (false, app) => (false, app)
  | (true, app) =>
    let app := app.emit .NDIlib_init
    if !env.initialize_ok then
      app.fail "NDI reported your CPU as invalid and will not run."
    else
      match CreateNDISender env app with
      | (false, app) => (false, app)
      | (true, app) => (true, InitializeNDIFrame app)

/-- The size argument `width_ * height_ * 2` of the two `_aligned_malloc` calls
of `CreateBuffers` (01, lines 400-401), computed in `UINT` arithmetic. -/
def scratchBytes (width_ height_ : Nat) : Nat :=
  (((width_ * height_) % UINT_MOD) * 2) % UINT_MOD

/-- `WebcamApp::CreateBuffers` (lines 399-403).  The event of an allocation
carries the size asked for. -/
def CreateBuffers (env : Env) (app : App) : Bool × App :=
  let app := { app.emit (.aligned_malloc .buffer1_ (scratchBytes app.width_ app.height_)) with
    buffer1_ := env.malloc1 }
  let app := { app.emit (.aligned_malloc .buffer2_ (scratchBytes app.width_ app.height_)) with
    buffer2_ := env.malloc2 }
  (true, app)

/-- `WebcamApp::Initialize` (lines 54-77). -/
def Initialize (env : Env) (app : App) : Bool × App :=
  match SetupMediaFoundation env app with
  | (false, app) => app.fail "Failed to set up Media Foundation."
  | (true, app) =>
    match SetupCapture env.capture app with
    | (false, app) => app.fail "Failed to set up webcam capture."
    | (true, app) =>
      match SetupNDI env.ndi app with
      | (false, app) => app.fail "Failed to set up NDI."
      | (true, app) =>
        match CreateBuffers env app with
        | (false, app) => app.fail "Failed to create buffers required for NDI."
        | (true, app) => (true, app)

/-- `WebcamApp::CleanupNDI` (lines 290-294). -/
def CleanupNDI (app : App) : App :=
  ((app.emit .send_send_video_async_v2_NULL).emit .send_destroy).emit .ndi_destroy

/-- `WebcamApp::DestroyBuffers` (lines 405-414); the two flags say whether
`buffer1_` and `buffer2_` are non-null. -/
def DestroyBuffers (buffer1_nonnull buffer2_nonnull : Bool) (app : App) : App :=
  let app :=
    if buffer1_nonnull then (app.emit (.cout "Freed buffer 1")).emit (.aligned_free .buffer1_)
    else app
  if buffer2_nonnull then (app.emit (.cout "Freed buffer 2")).emit (.aligned_free .buffer2_)
  else app

/-- `WebcamApp::Cleanup` (lines 416-420). -/
def Cleanup (buffer1_nonnull buffer2_nonnull : Bool) (app : App) : App :=
  (DestroyBuffers buffer1_nonnull buffer2_nonnull (CleanupNDI app)).emit .MFShutdown

/-- The object and the local `useBuffer0` of `Run`, with the reason for which
the loop was left, if it was.  `left` is kept for the theorems only: `Run` is
`void` and hands no value to its caller. -/
structure RunState where
  app : App
  useBuffer0 : Bool
  left : Option Break

/-- The call `send_send_video_async_v2(ndi_sender_, &ndi_video_frame_)` of
line 382. -/
def App.send (app : App) (n : Nat) : App :=
  { app.emit (.send_send_video_async_v2 n app.ndi_video_frame_) with
    sent := app.sent ++ [app.deref app.ndi_video_frame_.p_data] }

/-- Lines 373-384 of `Run`: convert into one scratch buffer, set `p_data`, send,
unlock.  `none` when the converter does not return. -/
def convertAndSend (n : Nat) (useBuffer0 : Bool) (s : Sample) (app : App) : Option App :=
  if useBuffer0 then
    match YUY2ToUYVYWithPitch s.srcData app.buffer1_ app.width_ app.height_ s.pitch with
    | none => none
    | some c =>
      let app := { app.emit (.YUY2ToUYVYWithPitch n .buffer1_) with buffer1_ := c.dest }
      let app := { app with
        ndi_video_frame_ := { app.ndi_video_frame_ with p_data := .buffer2_ } }
      some ((app.send n).emit (.Unlock2D n))
  else
    match YUY2ToUYVYWithPitch s.srcData app.buffer2_ app.width_ app.height_ s.pitch with
    | none => none
    | some c =>
      let app := { app.emit (.YUY2ToUYVYWithPitch n .buffer2_) with buffer2_ := c.dest }
      let app := { app with
        ndi_video_frame_ := { app.ndi_video_frame_ with p_data := .buffer1_ } }
      some ((app.send n).emit (.Unlock2D n))

/-- The `while (true)` loop of `Run` (lines 331-396), from iteration `n` on,
against the remaining answers of `ReadSample`.  `none` when a call of the
converter does not return. -/
def runLoop : List ReadResult → Nat → RunState → Option RunState
  | [], _, st => some st
  | r :: rest, n, st =>
    let app := st.app.emit (.ReadSample n)
    if !r.hr_ok then
      some { st with
        app := app.emit (.cerr "Failed to read video sample."), left := some .readFailed }
    else if r.endOfStream then
      some { st with app := app.emit (.cout "End of stream."), left := some .endOfStream }
    else
      match r.sample with
      | none => runLoop rest (n + 1) { st with app := app }
      | some s =>
        let app := app.emit (.ConvertToContiguousBuffer n)
        if !s.contiguous_ok then
          some { st with
            app := app.emit (.cerr "Failed to convert sample to contiguous buffer.")
            left := some .contiguousFailed }
        else
          let app := app.emit (.As_IMF2DBuffer2 n)
          if s.as2D_ok then
            let app := app.emit (.Lock2DSize n)
            if !s.lock_ok then
              some { st with
                app := app.emit
                  (.cerr "Failed to convert sample to contiguous buffer (2d2).")
                left := some .lockFailed }
            else
              match convertAndSend n st.useBuffer0 s app with
              | none => none
              | some app =>
                runLoop rest (n + 1) { st with app := app, useBuffer0 := !st.useBuffer0 }
          else
            runLoop rest (n + 1) { st with app := app, useBuffer0 := !st.useBuffer0 }

/-- `WebcamApp::Run` (lines 311-397) against the answers `script` of
`ReadSample`. -/
def Run (script : List ReadResult) (app : App) : Option RunState :=
  runLoop script 0 { app := app, useBuffer0 := true, left := none }

/-- The object as `main` declares it: `frame0` is the value the constructor of
`NDIlib_video_frame_v2_t` gives `ndi_video_frame_`, `garbage1` and `garbage2`
what the uninitialised `buffer1_` and `buffer2_` point to. -/
def App.declared (frame0 : NDIlib_video_frame_v2_t) (garbage1 garbage2 : Mem) : App :=
  { width_ := 0, height_ := 0, ndi_video_frame_ := frame0
    buffer1_ := garbage1, buffer2_ := garbage2, trace := [], sent := [] }

/-- `main` (lines 422-434): the exit status and the final object; `none` when
`Run` does not return. -/
def main (env : Env) (script : List ReadResult) (app : App) : Option (Int × App) :=
  match Initialize env app with
  | (false, app) => some (1, app.emit (.cerr "Failed to initialize webcam application."))
  | (true, app) =>
    match Run script app with
    | none => none
    | some st =>
      match st.left with
      | none => none
      | some _ => some (0, Cleanup true true st.app)

end NDI

/-! ## The shared-texture program (`02 - DX11 Texture Output/main.cpp`) -/

namespace DX11

/-- What the Direct3D calls of `Initialize` answer. -/
structure D3DEnv where
  D3D11CreateDevice_ok : Bool
  QueryInterface_ID3D11Device5_ok : Bool
  QueryInterface_ID3D11DeviceContext4_ok : Bool
  CreateTexture2D1_staging_ok : Bool
  CreateTexture2D1_shared_ok : Bool

/-- What the calls of `Initialize` answer. -/
structure Env where
  MFStartup_ok : Bool
  d3d : D3DEnv
  capture : CaptureEnv

/-- The data members of `class WebcamApp` that the claims are about: the frame
size, the bytes of the staging texture as seen through `mappedResource.pData`,
the bytes of the shared texture, and the events so far. -/
structure App where
  width_ : Nat
  height_ : Nat
  webcamStagingTexture : Mem
  webcamSharedTexture : Mem
  trace : List Event

/-- How a member function ends: it returns a `bool`, or it calls a method
through a null `ComPtr` and the program does not continue. -/
inductive Ret where
  | ret (b : Bool)
  | nullDeref
  deriving DecidableEq, Repr

/-- Record one event. -/
def App.emit (app : App) (e : Event) : App :=
  { app with trace := app.trace ++ [e] }

/-- Print `msg` on `std::cerr` and `return false`. -/
def App.fail (app : App) (msg : String) : Bool × App :=
  (false, app.emit (.cerr msg))

/-- `WebcamApp::SetupMediaFoundation` (lines 79-86). -/
def SetupMediaFoundation (env : Env) (app : App) : Bool × App :=
  let app := app.emit .MFStartup
  if !env.MFStartup_ok then app.fail "Failed to initialize Media Foundation."
  else (true, app)

/-- `WebcamApp::SetupD3D11` (lines 116-144).  When `D3D11CreateDevice` fails the
function prints a line and goes on to line 131, where `_device` is null. -/
def SetupD3D11 (env : D3DEnv) (app : App) : Ret × App :=
  let app := app.emit .D3D11CreateDevice
  let app :=
    if !env.D3D11CreateDevice_ok then
      app.emit (.cerr "Failed to crate D3D11 device and context.")
    else app
  let app := app.emit .QueryInterface_ID3D11Device5
  if !env.D3D11CreateDevice_ok then (.nullDeref, app)
  else if !env.QueryInterface_ID3D11Device5_ok then
    (.ret false, app.emit (.cerr "Failed to upgrade D3D11 device to latest."))
  else
    let app := app.emit .QueryInterface_ID3D11DeviceContext4
    if !env.QueryInterface_ID3D11DeviceContext4_ok then
      (.ret false, app.emit (.cerr "Failed to upgrade D3D11 context to latest."))
    else (.ret true, app)

/-- `WebcamApp::SetupCapture` (lines 146-237). -/
def SetupCapture (env : CaptureEnv) (app : App) : Bool × App :=
  let app := app.emit .MFCreateAttributes
  if !env.MFCreateAttributes_ok then app.fail "Failed to create IMFAttributes." else
  let app := app.emit .SetGUID
  if !env.SetGUID_ok then app.fail "Failed to set device source attribute." else
  let app := app.emit .MFEnumDeviceSources
  if !env.MFEnumDeviceSources_ok || env.count == 0 then
    (false, (app.emit (.cerr "Failed to enumerate video capture devices.")).emit
      .CoTaskMemFree)
  else
  let app := { app with trace := app.trace ++ printFriendlyNames env }
  let app := app.emit .ActivateObject
  if !env.ActivateObject_ok || env.count == 0 then
    (false, (app.emit (.cerr "Failed to activate IMFMediaSource.")).emit
      .CleanupActivateArray)
  else
  let app := app.emit .MFCreateSourceReaderFromMediaSource
  if !env.MFCreateSourceReaderFromMediaSource_ok then
    (false, (app.emit (.cerr "Failed to create IMFSourceReader from IMFMediaSource.")).emit
      .CleanupActivateArray)
  else
  let app := app.emit .CleanupActivateArray
  let app := app.emit .GetCurrentMediaType
  if !env.GetCurrentMediaType_ok then app.fail "Failed to get current media type." else
  let app := app.emit .MFGetAttributeSize
  if !env.MFGetAttributeSize_ok then app.fail "Failed to get video frame size." else
  let app := app.emit .GetGUID
  if !env.GetGUID_ok then app.fail "Failed to get format." else
  let app := app.emit .SetCurrentMediaType
  if !env.SetCurrentMediaType_ok then app.fail "Failed to set video output format" else
  let app := app.emit .SetStreamSelection
  if !env.SetStreamSelection_ok then app.fail "Failed to enable video stream" else
  (true, { app with width_ := env.width % UINT_MOD, height_ := env.height % UINT_MOD })

/-- `WebcamApp::SetupD3D11StagingTexture` (lines 239-262). -/
def SetupD3D11StagingTexture (env : D3DEnv) (app : App) : Bool × App :=
  let app := app.emit .CreateTexture2D1_staging
  if !env.CreateTexture2D1_staging_ok then
    app.fail "Failed to create webcam D3D11 staging texture #1."
  else (true, app)

/-- `WebcamApp::SetupD3D11SharedTexture` (lines 264-286). -/
def SetupD3D11SharedTexture (env : D3DEnv) (app : App) : Bool × App :=
  let app := app.emit .CreateTexture2D1_shared
  if !env.CreateTexture2D1_shared_ok then
    app.fail "Failed to create D3D11 (shared) rendering texture."
  else (true, app)

/-- `WebcamApp::Initialize` (lines 49-77). -/
def Initialize (env : Env) (app : App) : Ret × App :=
  match SetupMediaFoundation env app with
  | (false, app) => (.ret false, app.emit (.cerr "Failed to set up Media Foundation."))
  | (true, app) =>
    match SetupD3D11 env.d3d app with
    | (.nullDeref, app) => (.nullDeref, app)
    | (.ret false, app) => (.ret false, app.emit (.cerr "Failed to set up Direct3D 11."))
    | (.ret true, app) =>
      match SetupCapture env.capture app with
      | (false, app) => (.ret false, app.emit (.cerr "Failed to set up webcam capture."))
      | (true, app) =>
        match SetupD3D11StagingTexture env.d3d app with
        | (false, app) =>
          (.ret false, app.emit (.cerr "Failed to set up D3D11 staging texture."))
        | (true, app) =>
          match SetupD3D11SharedTexture env.d3d app with
          | (false, app) =>
            (.ret false, app.emit (.cerr "Failed to set up D3D11 shared texture."))
          | (true, app) => (.ret true, app)

/-- What the environment answers in one iteration of the loop of `Run`. -/
structure Tick where
  /-- `GetAsyncKeyState(VK_ESCAPE)` is non-zero. -/
  escape : Bool
  read : ReadResult
  /-- `context->Map` succeeds. -/
  Map_ok : Bool
  /-- `mappedResource.RowPitch`. -/
  RowPitch : Nat

/-- The object and the local `useBuffer0` of `Run`, with the reason for which
the loop was left, if it was (kept for the theorems only: `Run` is `void`). -/
structure RunState where
  app : App
  useBuffer0 : Bool
  left : Option Break

/-- The product `static_cast<size_t>(height_) * pitch` of line 389: `pitch` is
converted to the 64-bit `size_t`. -/
def bufferSize (height_ : Nat) (pitch : Int) : Nat :=
  (((height_ : Int) * pitch) % (SIZE_MOD : Int)).toNat

/-- `memcpy(dest, src, count)`. -/
def memcpy (dest src : Mem) (count : Nat) : Mem :=
  fun a => if a < count then src a else dest a

/-- Lines 389-397 of `Run`: copy the locked buffer into the mapped staging
texture, unmap, unlock, copy the staging texture to the shared texture. -/
def publish (n : Nat) (s : Sample) (app : App) : App :=
  let count := bufferSize app.height_ s.pitch
  let app := { app.emit (.memcpy n count) with
    webcamStagingTexture := memcpy app.webcamStagingTexture s.pScanline0 count }
  let app := (app.emit (.Unmap n)).emit (.Unlock2D n)
  { app.emit (.CopyResource n) with webcamSharedTexture := app.webcamStagingTexture }

/-- The `while (true)` loop of `Run` (lines 342-409), from iteration `n` on,
against the remaining answers of the environment. -/
def runLoop : List Tick → Nat → RunState → RunState
  | [], _, st => st
  | t :: rest, n, st =>
    let app := st.app.emit (.GetAsyncKeyState n)
    if t.escape then { st with app := app, left := some .escapeKey }
    else
      let app := app.emit (.ReadSample n)
      if !t.read.hr_ok then
        { st with
          app := app.emit (.cerr "Failed to read video sample."), left := some .readFailed }
      else if t.read.endOfStream then
        { st with app := app.emit (.cout "End of stream."), left := some .endOfStream }
      else
        match t.read.sample with
        | none => runLoop rest (n + 1) { st with app := app }
        | some s =>
          let app := app.emit (.ConvertToContiguousBuffer n)
          if !s.contiguous_ok then
            { st with
              app := app.emit (.cerr "Failed to convert sample to contiguous buffer.")
              left := some .contiguousFailed }
          else
            let app := app.emit (.As_IMF2DBuffer2 n)
            if s.as2D_ok then
              let app := app.emit (.Lock2DSize n)
              if !s.lock_ok then
                { st with
                  app := app.emit
                    (.cerr "Failed to convert sample to contiguous buffer (2d2).")
                  left := some .lockFailed }
              else
                let app := app.emit (.Map n)
                if !t.Map_ok then
                  { st with
                    app := app.emit (.cerr "Failed to map the webcam staging texture.")
                    left := some .mapFailed }
                else
                  runLoop rest (n + 1)
                    { st with app := publish n s app, useBuffer0 := !st.useBuffer0 }
            else
              runLoop rest (n + 1) { st with app := app, useBuffer0 := !st.useBuffer0 }

/-- `WebcamApp::Run` (lines 320-415) against the answers `script` of the
environment. -/
def Run (script : List Tick) (app : App) : RunState :=
  runLoop script 0
    { app := app.emit .GetSharedTextureHandle, useBuffer0 := true, left := none }

end DX11

/-! ## Reading a trace -/

/-- Iterations in which `send_send_video_async_v2` was called with a frame, in
the order of the calls. -/
def publishIters (t : List Event) : List Nat :=
  t.filterMap fun
    | .send_send_video_async_v2 n _ => some n
    | _ => none

/-- Iterations in which `ReadSample` was called, in the order of the calls. -/
def readIters (t : List Event) : List Nat :=
  t.filterMap fun
    | .ReadSample n => some n
    | _ => none

/-- Iterations in which the converter was called, in the order of the calls. -/
def convertIters (t : List Event) : List Nat :=
  t.filterMap fun
    | .YUY2ToUYVYWithPitch n _ => some n
    | _ => none

/-- Destination buffers of the converter calls, in the order of the calls. -/
def convertTargets (t : List Event) : List BufPtr :=
  t.filterMap fun
    | .YUY2ToUYVYWithPitch _ d => some d
    | _ => none

/-- A `ReadSample` answer that delivers a frame: the call succeeds, the
end-of-stream flag is clear, the sample is non-null and can be locked as a 2D
buffer. -/
def ReadResult.delivers (r : ReadResult) : Bool :=
  r.hr_ok && !r.endOfStream &&
    match r.sample with
    | none => false
    | some s => s.contiguous_ok && s.as2D_ok && s.lock_ok

/-- A `ReadSample` answer that is a read failure or carries the end-of-stream
flag. -/
def ReadResult.terminal (r : ReadResult) : Bool :=
  !r.hr_ok || r.endOfStream

/-- A delivered 2x1 frame with the bytes `10 80 20 90` and pitch 4. -/
def frame2x1 : ReadResult :=
  { hr_ok := true, endOfStream := false
    sample := some { contiguous_ok := true, as2D_ok := true, lock_ok := true
                     srcData := scenarioSrc, pitch := 4, pScanline0 := scenarioSrc } }

/-- A `ReadSample` answer with the end-of-stream flag and no sample. -/
def endOfStreamAnswer : ReadResult := { hr_ok := true, endOfStream := true, sample := none }

/-- A failed `ReadSample`. -/
def readFailureAnswer : ReadResult := { hr_ok := false, endOfStream := false, sample := none }

/-- The network-sink object after `Initialize` for a 2x1 device, with `b1` and
`b2` the bytes in the two fresh scratch buffers. -/
def NDI.app2x1 (b1 b2 : Mem) : NDI.App :=
  { width_ := 2, height_ := 1
    ndi_video_frame_ :=
      { xres := 2, yres := 1, FourCC := .NDIlib_FourCC_type_UYVY, frame_rate_N := 60000
        frame_rate_D := 1000, line_stride_in_bytes := 4, p_data := .null }
    buffer1_ := b1, buffer2_ := b2, trace := [], sent := [] }

/-- The scratch buffer of parity `i` when parity 0 is `buffer1_` (`first` is
true) or `buffer2_` (`first` is false). -/
def scratchOfParity (first : Bool) (i : Nat) : BufPtr :=
  if (i % 2 == 0) == first then .buffer1_ else .buffer2_

/-- A capture environment in which every call succeeds, with one device of
frame size `width` x `height`. -/
def captureOk (width height : Nat) : CaptureEnv :=
  { MFCreateAttributes_ok := true, SetGUID_ok := true, MFEnumDeviceSources_ok := true
    count := 1, GetAllocatedString_ok := fun _ => true, ActivateObject_ok := true
    MFCreateSourceReaderFromMediaSource_ok := true, GetCurrentMediaType_ok := true
    MFGetAttributeSize_ok := true, width := width, height := height, GetGUID_ok := true
    format := 0, SetCurrentMediaType_ok := true, SetStreamSelection_ok := true }

/-- An environment of the network-sink program in which every call of
`Initialize` succeeds, for a 2x1 device. -/
def NDI.envOk : NDI.Env :=
  { MFStartup_ok := true, capture := captureOk 2 1
    ndi := { dupenv_ok := true, LoadLibraryA_ok := true, GetProcAddress_ok := true
             initialize_ok := true, send_create_ok := true }
    malloc1 := zeroMem, malloc2 := zeroMem }

/-- The network-sink object as `main` declares it, with an all-zero frame
descriptor. -/
def NDI.app0 : NDI.App :=
  NDI.App.declared
    { xres := 0, yres := 0, FourCC := .unset, frame_rate_N := 0, frame_rate_D := 0
      line_stride_in_bytes := 0, p_data := .null } zeroMem zeroMem

/-- An environment of the shared-texture program in which `D3D11CreateDevice`
fails and every other call would succeed, for a 2x2 device. -/
def DX11.envNoDevice : DX11.Env :=
  { MFStartup_ok := true
    d3d := { D3D11CreateDevice_ok := false, QueryInterface_ID3D11Device5_ok := true
             QueryInterface_ID3D11DeviceContext4_ok := true
             CreateTexture2D1_staging_ok := true, CreateTexture2D1_shared_ok := true }
    capture := captureOk 2 2 }

/-- The shared-texture object as `main` declares it, with zero-filled
textures. -/
def DX11.app0 : DX11.App :=
  { width_ := 0, height_ := 0, webcamStagingTexture := zeroMem
    webcamSharedTexture := zeroMem, trace := [] }

/-- Bytes `1, 2, 3, ...` at offsets `0, 1, 2, ...` (modulo 256). -/
def countingMem : Mem := fun a => UInt8.ofNat (a + 1)

/-- A delivered sample with the bytes of `countingMem` and the given pitch. -/
def countingFrame (pitch : Int) : ReadResult :=
  { hr_ok := true, endOfStream := false
    sample := some { contiguous_ok := true, as2D_ok := true, lock_ok := true
                     srcData := countingMem, pitch := pitch, pScanline0 := countingMem } }

/-- One iteration of the shared-texture loop: no escape key, a delivered
`countingFrame` with the given source pitch, and a successful `Map` with the
given `RowPitch`. -/
def DX11.tick (pitch : Int) (RowPitch : Nat) : DX11.Tick :=
  { escape := false, read := countingFrame pitch, Map_ok := true, RowPitch := RowPitch }

/-- The shared-texture object after `Initialize` for a 2x2 device. -/
def DX11.app2x2 : DX11.App :=
  { width_ := 2, height_ := 2, webcamStagingTexture := zeroMem
    webcamSharedTexture := zeroMem, trace := [] }

/-- Iterations in which `GetAsyncKeyState(VK_ESCAPE)` was called, in the order
of the calls. -/
def keyIters (t : List Event) : List Nat :=
  t.filterMap fun
    | .GetAsyncKeyState n => some n
    | _ => none

/-- The stop-signal checks and the reads of a trace, in the order of the
calls. -/
def pollEvents (t : List Event) : List Event :=
  t.filter fun
    | .GetAsyncKeyState _ => true
    | .ReadSample _ => true
    | _ => false

/-- Iterations in which the shared-texture pump copied into the staging texture
(`memcpy`) or from it into the shared texture (`CopyResource`), in the order of
the calls. -/
def copyIters (t : List Event) : List Nat :=
  t.filterMap fun
    | .memcpy n _ => some n
    | .CopyResource n => some n
    | _ => none

/-- An iteration of the shared-texture loop after which the loop goes on: the
escape key is up, `ReadSample` succeeds without the end-of-stream flag, and the
sample is null, or fails the cast to a 2D buffer, or is locked and mapped
successfully. -/
def DX11.Tick.continues (u : DX11.Tick) : Bool :=
  !u.escape && u.read.hr_ok && !u.read.endOfStream &&
    match u.read.sample with
    | none => true
    | some s => s.contiguous_ok && (!s.as2D_ok || (s.lock_ok && u.Map_ok))

/-- An iteration of the shared-texture loop in which the escape key is down (a
frame is ready, but is not asked for). -/
def DX11.escapeTick : DX11.Tick :=
  { escape := true, read := countingFrame 4, Map_ok := true, RowPitch := 4 }

/-- The fields of a frame descriptor other than the data pointer: `xres`,
`yres`, `FourCC`, `frame_rate_N`, `frame_rate_D`, `line_stride_in_bytes`. -/
def NDIlib_video_frame_v2_t.descriptor (f : NDIlib_video_frame_v2_t) :
    Int × Int × WebcamApp.FourCC × Int × Int × Int :=
  (f.xres, f.yres, f.FourCC, f.frame_rate_N, f.frame_rate_D, f.line_stride_in_bytes)

/-- The network-sink object after a successful `Initialize` in the environment
`NDI.envOk` (a 2x1 device). -/
def NDI.appReady : NDI.App := (NDI.Initialize NDI.envOk NDI.app0).2

/-- The source of the 1280x720 scenario with one padding byte changed: offset
2600 lies in the padding of row 0 when the pitch is 2688. -/
def paddedSrc : Mem := fun a => if a = 2600 then 0xFF else scenarioSrc a

/-- A source that is zero except for one byte at offset `2^31 - 2`, a padding
byte of row 0 when the width is 2 and the pitch is `2^31 - 1`. -/
def farPadSrc : Mem := fun a => if a = 2147483646 then 1 else 0

/-- A delivered one-row frame of zero bytes with the largest `LONG` as pitch
(with one row the pitch is multiplied by the row number 0 only). -/
def oneRowFrame : ReadResult :=
  { hr_ok := true, endOfStream := false
    sample := some { contiguous_ok := true, as2D_ok := true, lock_ok := true
                     srcData := zeroMem, pitch := 2147483647, pScanline0 := zeroMem } }

/-- A `ReadSample` answer whose sample passes `ConvertToContiguousBuffer` and
fails the cast `buffer.As(&pBuffer2D2)`. -/
def failedCastAnswer : ReadResult :=
  { hr_ok := true, endOfStream := false
    sample := some { contiguous_ok := true, as2D_ok := false, lock_ok := true
                     srcData := scenarioSrc, pitch := 4, pScanline0 := scenarioSrc } }

/-- A `ReadSample` answer after which the loop of the network-sink `Run` goes
on to its next iteration: the call succeeds without the end-of-stream flag, and
the sample is null, or it passes `ConvertToContiguousBuffer` and then either
fails the cast to a 2D buffer or is locked. -/
def ReadResult.continues (r : ReadResult) : Bool :=
  r.hr_ok && !r.endOfStream &&
    match r.sample with
    | none => true
    | some s => s.contiguous_ok && (!s.as2D_ok || s.lock_ok)

/-- An environment of the network-sink program in which every call of
`Initialize` succeeds, for a device of frame size `2^30` x 1. -/
def NDI.envWide : NDI.Env := { NDI.envOk with capture := captureOk 1073741824 1 }

/-- The network-sink object after a successful `Initialize` in the environment
`NDI.envWide`. -/
def NDI.appWide : NDI.App := (NDI.Initialize NDI.envWide NDI.app0).2

theorem row_div (W y r : Nat) (h : r < W) : (y * W + r) / W = y := by
  have hW : 0 < W := by omega
  rw [Nat.add_comm, Nat.add_mul_div_right _ _ hW, Nat.div_eq_of_lt h, Nat.zero_add]

theorem row_mod (W y r : Nat) (h : r < W) : (y * W + r) % W = r := by
  rw [Nat.add_comm, Nat.add_mul_mod_self_right, Nat.mod_eq_of_lt h]

theorem mulUintLong_nat (y p : Nat) (h : y * p < UINT_MOD) :
    mulUintLong y (p : Int) = y * p := by
  unfold mulUintLong
  have h1 : ((y : Int) * (p : Int)) = ((y * p : Nat) : Int) := by push_cast; rfl
  rw [h1, ← Int.natCast_mod, Int.toNat_natCast, Nat.mod_eq_of_lt h]

/-! ## The converter: loop invariant -/

theorem pixelPair_inv (srcData destData : Mem) (width : Nat) (pitch : Int)
    (y x : Nat) (st : ConvState) (hx : x + 2 ≤ width) (hw : width * 2 ≤ UINT_MOD)
    (hinv : ConvInv srcData destData width pitch (y * (width * 2) + x * 2) st) :
    ConvInv srcData destData width pitch (y * (width * 2) + (x + 2) * 2)
      (pixelPair srcData y (y * (width * 2)) (mulUintLong y pitch) x st) := by
  obtain ⟨hd, hl, hc⟩ := hinv
  have hM : x * 2 + 3 < UINT_MOD := by omega
  have e0 : (x * 2) % UINT_MOD = x * 2 := Nat.mod_eq_of_lt (by omega)
  have e1 : (x * 2 + 1) % UINT_MOD = x * 2 + 1 := Nat.mod_eq_of_lt (by omega)
  have e2 : (x * 2 + 2) % UINT_MOD = x * 2 + 2 := Nat.mod_eq_of_lt (by omega)
  have e3 : (x * 2 + 3) % UINT_MOD = x * 2 + 3 := Nat.mod_eq_of_lt (by omega)
  have d0 := row_div (width * 2) y (x * 2) (by omega)
  have d1 := row_div (width * 2) y (x * 2 + 1) (by omega)
  have d2 := row_div (width * 2) y (x * 2 + 2) (by omega)
  have d3 := row_div (width * 2) y (x * 2 + 3) (by omega)
  have m0 := row_mod (width * 2) y (x * 2) (by omega)
  have m1 := row_mod (width * 2) y (x * 2 + 1) (by omega)
  have m2 := row_mod (width * 2) y (x * 2 + 2) (by omega)
  have m3 := row_mod (width * 2) y (x * 2 + 3) (by omega)
  have s0 : swapOff (x * 2) = x * 2 + 1 := by unfold swapOff; rw [if_pos (by omega)]
  have s1 : swapOff (x * 2 + 1) = x * 2 := by
    unfold swapOff; rw [if_neg (by omega)]; omega
  have s2 : swapOff (x * 2 + 2) = x * 2 + 3 := by unfold swapOff; rw [if_pos (by omega)]
  have s3 : swapOff (x * 2 + 3) = x * 2 + 2 := by
    unfold swapOff; rw [if_neg (by omega)]; omega
  simp only [pixelPair, ConvState.assign, e0, e1, e2, e3]
  refine ⟨?_, ?_, ?_⟩
  · intro a
    simp only []
    by_cases h3 : a = y * (width * 2) + (x * 2 + 3)
    · subst h3
      rw [if_pos rfl, if_pos (by omega), d3, m3, s3]
    by_cases h2 : a = y * (width * 2) + (x * 2 + 2)
    · subst h2
      rw [if_neg (by omega), if_pos rfl, if_pos (by omega), d2, m2, s2]
    by_cases h1 : a = y * (width * 2) + (x * 2 + 1)
    · subst h1
      rw [if_neg (by omega), if_neg (by omega), if_pos rfl, if_pos (by omega), d1, m1, s1]
    by_cases h0 : a = y * (width * 2) + x * 2
    · subst h0
      rw [if_neg (by omega), if_neg (by omega), if_neg (by omega), if_pos rfl,
        if_pos (by omega), d0, m0, s0]
    rw [if_neg h3, if_neg h2, if_neg h1, if_neg h0, hd a]
    by_cases hlt : a < y * (width * 2) + x * 2
    · rw [if_pos hlt, if_pos (by omega)]
    · rw [if_neg hlt, if_neg (by omega)]
  · intro e he
    simp only [List.mem_cons] at he
    rcases he with rfl | rfl | rfl | rfl | he
    · exact ⟨by simp only []; omega, by simp only [d3], by simp only [d3, m3, s3]⟩
    · exact ⟨by simp only []; omega, by simp only [d2], by simp only [d2, m2, s2]⟩
    · exact ⟨by simp only []; omega, by simp only [d1], by simp only [d1, m1, s1]⟩
    · exact ⟨by simp only []; omega, by simp only [d0], by simp only [d0, m0, s0]⟩
    · obtain ⟨h1, h2, h3⟩ := hl e he
      exact ⟨by omega, h2, h3⟩
  · intro a ha
    by_cases hlt : a < y * (width * 2) + x * 2
    · obtain ⟨e, he, hea⟩ := hc a hlt
      exact ⟨e, by simp only [List.mem_cons]; right; right; right; right; exact he, hea⟩
    · have : a = y * (width * 2) + (x * 2 + 3) ∨ a = y * (width * 2) + (x * 2 + 2) ∨
          a = y * (width * 2) + (x * 2 + 1) ∨ a = y * (width * 2) + x * 2 := by omega
      rcases this with h | h | h | h
      · exact ⟨_, List.mem_cons_self _ _, h.symm⟩
      · exact ⟨_, List.mem_cons_of_mem _ (List.mem_cons_self _ _), h.symm⟩
      · exact ⟨_, List.mem_cons_of_mem _ (List.mem_cons_of_mem _ (List.mem_cons_self _ _)),
          h.symm⟩
      · exact ⟨_, List.mem_cons_of_mem _ (List.mem_cons_of_mem _
          (List.mem_cons_of_mem _ (List.mem_cons_self _ _))), h.symm⟩

theorem rowLoop_inv (srcData destData : Mem) (width : Nat) (pitch : Int) (y : Nat)
    (hw : width * 2 ≤ UINT_MOD) (hev : width % 2 = 0) :
    ∀ (fuel x : Nat) (st : ConvState), x % 2 = 0 → x ≤ width → (width - x) / 2 < fuel →
      ConvInv srcData destData width pitch (y * (width * 2) + x * 2) st →
      ∃ st', rowLoop srcData width y (y * (width * 2)) (mulUintLong y pitch) fuel x st
          = some st' ∧
        ConvInv srcData destData width pitch ((y + 1) * (width * 2)) st' := by
  intro fuel
  induction fuel with
  | zero => intro x st _ _ hf; omega
  | succ n ih =>
    intro x st hx hle hf hinv
    unfold rowLoop
    by_cases hlt : x < width
    · rw [if_pos hlt]
      have hx2 : x + 2 ≤ width := by omega
      have hmod : (x + 2) % UINT_MOD = x + 2 := Nat.mod_eq_of_lt (by omega)
      rw [hmod]
      exact ih (x + 2) _ (by omega) hx2 (by omega)
        (pixelPair_inv srcData destData width pitch y x st hx2 hw hinv)
    · rw [if_neg hlt]
      have hxw : x = width := by omega
      subst hxw
      refine ⟨st, rfl, ?_⟩
      have : (y + 1) * (x * 2) = y * (x * 2) + x * 2 := by ring
      rw [this]
      exact hinv

theorem destRow_eq (y width : Nat) (h : y * (width * 2) < UINT_MOD) :
    (((y * width) % UINT_MOD) * 2) % UINT_MOD = y * (width * 2) := by
  have h1 : y * (width * 2) = y * width * 2 := by ring
  have h2 : y * width < UINT_MOD := by omega
  rw [Nat.mod_eq_of_lt h2, h1, Nat.mod_eq_of_lt (by omega)]

theorem frameLoop_inv (srcData destData : Mem) (width height : Nat) (pitch : Int)
    (hw : 0 < height → width * 2 ≤ UINT_MOD) (hev : width % 2 = 0)
    (hh : height < UINT_MOD) (hrow : ∀ y, y < height → y * (width * 2) < UINT_MOD) :
    ∀ (fuel y : Nat) (st : ConvState), y ≤ height → height - y < fuel →
      ConvInv srcData destData width pitch (y * (width * 2)) st →
      ∃ st', frameLoop srcData width height pitch fuel y st = some st' ∧
        ConvInv srcData destData width pitch (height * (width * 2)) st' := by
  intro fuel
  induction fuel with
  | zero => intro y st _ hf; omega
  | succ n ih =>
    intro y st hle hf hinv
    unfold frameLoop
    by_cases hlt : y < height
    · rw [if_pos hlt]
      have hw2 : width * 2 ≤ UINT_MOD := hw (by omega)
      simp only [destRow_eq y width (hrow y hlt)]
      have hinv0 : ConvInv srcData destData width pitch (y * (width * 2) + 0 * 2) st := by
        simpa using hinv
      obtain ⟨st1, hrun, hinv1⟩ := rowLoop_inv srcData destData width pitch y hw2 hev
        UINT_MOD 0 st (by decide) (Nat.zero_le _) (by omega) hinv0
      rw [hrun]
      have hmod : (y + 1) % UINT_MOD = y + 1 := Nat.mod_eq_of_lt (by omega)
      simp only [hmod]
      exact ih (y + 1) st1 hlt (by omega) hinv1
    · rw [if_neg hlt]
      have hyh : y = height := by omega
      subst hyh
      exact ⟨st, rfl, hinv⟩

/-- When the width is even and no destination row offset wraps, the call
returns and its final state satisfies the invariant at the end of the frame. -/
theorem convert_inv (srcData destData : Mem) (width height : Nat) (pitch : Int)
    (hw : 0 < height → width * 2 ≤ UINT_MOD) (hev : width % 2 = 0)
    (hh : height < UINT_MOD) (hrow : ∀ y, y < height → y * (width * 2) < UINT_MOD) :
    ∃ st, YUY2ToUYVYWithPitch srcData destData width height pitch = some st ∧
      ConvInv srcData destData width pitch (height * (width * 2)) st := by
  unfold YUY2ToUYVYWithPitch
  apply frameLoop_inv srcData destData width height pitch hw hev hh hrow UINT_MOD 0
    ⟨destData, []⟩ (Nat.zero_le _) (by omega)
  refine ⟨?_, ?_, ?_⟩
  · intro a; simp
  · intro e he; simp at he
  · intro a ha; simp at ha

/-! ## The converter: consequences of the invariant -/

theorem row_lt_frame (W height y r : Nat) (hy : y < height) (hr : r < W) :
    y * W + r < height * W := by
  have h1 : (y + 1) * W ≤ height * W := Nat.mul_le_mul_right _ hy
  have h2 : (y + 1) * W = y * W + W := by ring
  omega

theorem swapOff_lt (W j : Nat) (hW : W % 2 = 0) (hj : j < W) : swapOff j < W := by
  unfold swapOff
  split <;> omega

theorem swapOff_even (i : Nat) : swapOff (2 * i) = 2 * i + 1 := by
  unfold swapOff; rw [if_pos (by omega)]

theorem swapOff_odd (i : Nat) : swapOff (2 * i + 1) = 2 * i := by
  unfold swapOff; rw [if_neg (by omega)]; omega

theorem ConvInv.dest_row {srcData destData : Mem} {width height : Nat} {pitch : Int}
    {st : ConvState}
    (hinv : ConvInv srcData destData width pitch (height * (width * 2)) st)
    (y r : Nat) (hy : y < height) (hr : r < width * 2) :
    st.dest (y * (width * 2) + r) = srcData (mulUintLong y pitch + swapOff r) := by
  rw [hinv.1, if_pos (row_lt_frame _ _ _ _ hy hr), row_div _ _ _ hr, row_mod _ _ _ hr]

theorem ConvInv.log_row {srcData destData : Mem} {width height : Nat} {pitch : Int}
    {st : ConvState}
    (hinv : ConvInv srcData destData width pitch (height * (width * 2)) st)
    (e : Copy) (he : e ∈ st.log) :
    e.row < height ∧ ∃ r, r < width * 2 ∧ e.destOff = e.row * (width * 2) + r ∧
      e.srcOff = mulUintLong e.row pitch + swapOff r := by
  obtain ⟨hlt, hrow, hsrc⟩ := hinv.2.1 e he
  have hW : 0 < width * 2 := by
    rcases Nat.eq_zero_or_pos (width * 2) with h | h
    · rw [h] at hlt; omega
    · exact h
  refine ⟨?_, e.destOff % (width * 2), Nat.mod_lt _ hW, ?_, ?_⟩
  · rw [hrow]
    exact (Nat.div_lt_iff_lt_mul hW).2 hlt
  · rw [hrow, Nat.mul_comm]
    exact (Nat.div_add_mod _ _).symm
  · exact hsrc

theorem ConvInv.log_cover {srcData destData : Mem} {width height : Nat} {pitch : Int}
    {st : ConvState}
    (hinv : ConvInv srcData destData width pitch (height * (width * 2)) st)
    (y r : Nat) (hy : y < height) (hr : r < width * 2) :
    ∃ e ∈ st.log, e.row = y ∧ e.destOff = y * (width * 2) + r ∧
      e.srcOff = mulUintLong y pitch + swapOff r := by
  obtain ⟨e, he, hoff⟩ := hinv.2.2 _ (row_lt_frame _ _ _ _ hy hr)
  obtain ⟨_, hrow, hsrc⟩ := hinv.2.1 e he
  have hrow2 : e.row = y := by rw [hrow, hoff, row_div _ _ _ hr]
  refine ⟨e, he, hrow2, hoff, ?_⟩
  rw [hsrc, hrow2, hoff, row_mod _ _ _ hr]

/-! ## C1: byte permutation -/

/-- C1 (amended): for a positive even width, a positive height and a pitch of at
least `width * 2` bytes (a `LONG`, so below `2^31`) such that the start offset
of the last source row, `(height - 1) * pitch`, is below `2^32`, the call
returns and every source macropixel `(Y0, U, Y1, V)` of row `y` is stored as
`(U, Y0, V, Y1)` at the same macropixel position of destination row `y`. -/
theorem yuy2_macropixel_permutation (srcData destData : Mem) (width height pitch : Nat)
    (hw : 0 < width) (hev : width % 2 = 0) (hh : 0 < height)
    (hp : width * 2 ≤ pitch) (hlong : pitch < 2147483648)
    (hfit : (height - 1) * pitch < UINT_MOD) :
    ∃ st, YUY2ToUYVYWithPitch srcData destData width height (pitch : Int) = some st ∧
      ∀ y m, y < height → m < width / 2 →
        st.dest (y * width * 2 + 4 * m) = srcData (y * pitch + 4 * m + 1) ∧
        st.dest (y * width * 2 + 4 * m + 1) = srcData (y * pitch + 4 * m) ∧
        st.dest (y * width * 2 + 4 * m + 2) = srcData (y * pitch + 4 * m + 3) ∧
        st.dest (y * width * 2 + 4 * m + 3) = srcData (y * pitch + 4 * m + 2) := by
  have hM : UINT_MOD = 4294967296 := rfl
  have hrowp : ∀ y, y < height → y * pitch < UINT_MOD := fun y hy =>
    Nat.lt_of_le_of_lt (Nat.mul_le_mul_right _ (by omega)) hfit
  have hrow : ∀ y, y < height → y * (width * 2) < UINT_MOD := fun y hy =>
    Nat.lt_of_le_of_lt (Nat.mul_le_mul_left _ hp) (hrowp y hy)
  have hhM : height < UINT_MOD := by
    have h1 : (height - 1) * 2 ≤ (height - 1) * pitch := Nat.mul_le_mul_left _ (by omega)
    omega
  obtain ⟨st, hrun, hinv⟩ := convert_inv srcData destData width height (pitch : Int)
    (fun _ => by omega) hev hhM hrow
  refine ⟨st, hrun, ?_⟩
  intro y m hy hm
  have hs := mulUintLong_nat y pitch (hrowp y hy)
  have a0 : y * width * 2 + 4 * m = y * (width * 2) + 2 * (2 * m) := by ring
  have a1 : y * width * 2 + 4 * m + 1 = y * (width * 2) + (2 * (2 * m) + 1) := by ring
  have a2 : y * width * 2 + 4 * m + 2 = y * (width * 2) + 2 * (2 * m + 1) := by ring
  have a3 : y * width * 2 + 4 * m + 3 = y * (width * 2) + (2 * (2 * m + 1) + 1) := by ring
  refine ⟨?_, ?_, ?_, ?_⟩
  · rw [a0, hinv.dest_row y _ hy (by omega), hs, swapOff_even]; congr 1; omega
  · rw [a1, hinv.dest_row y _ hy (by omega), hs, swapOff_odd]; congr 1; omega
  · rw [a2, hinv.dest_row y _ hy (by omega), hs, swapOff_even]; congr 1; omega
  · rw [a3, hinv.dest_row y _ hy (by omega), hs, swapOff_odd]; congr 1; omega

/-- C1, the 1280x720 scenario with pitch 2560: the source bytes `10 80 20 90`
of the first macropixel arrive as `80 10 90 20`. -/
theorem yuy2_macropixel_permutation_witness :
    ∃ st, YUY2ToUYVYWithPitch scenarioSrc zeroMem 1280 720 2560 = some st ∧
      st.dest 0 = 0x80 ∧ st.dest 1 = 0x10 ∧ st.dest 2 = 0x90 ∧ st.dest 3 = 0x20 := by
  obtain ⟨st, hrun, h⟩ := yuy2_macropixel_permutation scenarioSrc zeroMem 1280 720 2560
    (by decide) (by decide) (by decide) (by decide) (by decide) (by decide)
  refine ⟨st, hrun, ?_⟩
  have h0 := h 0 0 (by decide) (by decide)
  simpa [scenarioSrc] using h0

/-- C1 as stated fails when a row offset wraps: for a 2x4 frame with pitch
`2^31 - 1` the product `3 * pitch` is reduced modulo `2^32`, so the first byte
of destination row 3 is not the byte at source offset `3 * pitch + 1`. -/
theorem yuy2_macropixel_permutation_wraps :
    ∃ st, YUY2ToUYVYWithPitch farSrc zeroMem 2 4 2147483647 = some st ∧
      st.dest (3 * 2 * 2 + 4 * 0) ≠ farSrc (3 * 2147483647 + 4 * 0 + 1) := by
  have key : (YUY2ToUYVYWithPitch farSrc zeroMem 2 4 2147483647).map
      (fun st => st.dest 12) = some 0 := by decide
  cases hrun : YUY2ToUYVYWithPitch farSrc zeroMem 2 4 2147483647 with
  | none => rw [hrun] at key; simp at key
  | some st =>
    rw [hrun] at key
    simp only [Option.map_some', Option.some.injEq] at key
    refine ⟨st, rfl, ?_⟩
    show st.dest 12 ≠ farSrc 6442450942
    rw [key]
    decide

/-! ## C3: the destination range written -/

theorem pixelPair_destOff_lt (srcData : Mem) (y destRow srcRow x : Nat) (st : ConvState)
    (hd : destRow < UINT_MOD) (h : ∀ e ∈ st.log, e.destOff < 2 * UINT_MOD) :
    ∀ e ∈ (pixelPair srcData y destRow srcRow x st).log, e.destOff < 2 * UINT_MOD := by
  have hpos : 0 < UINT_MOD := by decide
  have b0 := Nat.mod_lt (x * 2) hpos
  have b1 := Nat.mod_lt ((x * 2) % UINT_MOD + 1) hpos
  have b2 := Nat.mod_lt ((x * 2) % UINT_MOD + 2) hpos
  have b3 := Nat.mod_lt ((x * 2) % UINT_MOD + 3) hpos
  intro e he
  simp only [pixelPair, ConvState.assign, List.mem_cons] at he
  rcases he with rfl | rfl | rfl | rfl | he
  · simp only []; omega
  · simp only []; omega
  · simp only []; omega
  · simp only []; omega
  · exact h e he

theorem rowLoop_destOff_lt (srcData : Mem) (width y destRow srcRow : Nat)
    (hd : destRow < UINT_MOD) :
    ∀ (fuel x : Nat) (st st' : ConvState),
      rowLoop srcData width y destRow srcRow fuel x st = some st' →
      (∀ e ∈ st.log, e.destOff < 2 * UINT_MOD) →
      ∀ e ∈ st'.log, e.destOff < 2 * UINT_MOD := by
  intro fuel
  induction fuel with
  | zero => intro x st st' hrun; simp [rowLoop] at hrun
  | succ n ih =>
    intro x st st' hrun h
    unfold rowLoop at hrun
    by_cases hlt : x < width
    · rw [if_pos hlt] at hrun
      exact ih _ _ _ hrun (pixelPair_destOff_lt srcData y destRow srcRow x st hd h)
    · rw [if_neg hlt] at hrun
      cases hrun
      exact h

theorem frameLoop_destOff_lt (srcData : Mem) (width height : Nat) (pitch : Int) :
    ∀ (fuel y : Nat) (st st' : ConvState),
      frameLoop srcData width height pitch fuel y st = some st' →
      (∀ e ∈ st.log, e.destOff < 2 * UINT_MOD) →
      ∀ e ∈ st'.log, e.destOff < 2 * UINT_MOD := by
  intro fuel
  induction fuel with
  | zero => intro y st st' hrun; simp [frameLoop] at hrun
  | succ n ih =>
    intro y st st' hrun h
    unfold frameLoop at hrun
    by_cases hlt : y < height
    · rw [if_pos hlt] at hrun
      simp only [] at hrun
      cases hrow : rowLoop srcData width y (((y * width) % UINT_MOD) * 2 % UINT_MOD)
          (mulUintLong y pitch) UINT_MOD 0 st with
      | none => rw [hrow] at hrun; simp at hrun
      | some st1 =>
        rw [hrow] at hrun
        exact ih _ _ _ hrun
          (rowLoop_destOff_lt srcData width y _ _ (Nat.mod_lt _ (by decide)) _ _ _ _ hrow h)
    · rw [if_neg hlt] at hrun
      cases hrun
      exact h

theorem destRow_le (y width : Nat) :
    (((y * width) % UINT_MOD) * 2) % UINT_MOD ≤ y * (width * 2) :=
  calc (((y * width) % UINT_MOD) * 2) % UINT_MOD
      ≤ ((y * width) % UINT_MOD) * 2 := Nat.mod_le _ _
    _ ≤ (y * width) * 2 := Nat.mul_le_mul_right _ (Nat.mod_le _ _)
    _ = y * (width * 2) := by ring

theorem mulUintLong_le (y p : Nat) : mulUintLong y (p : Int) ≤ y * p := by
  unfold mulUintLong
  have h1 : ((y : Int) * (p : Int)) = ((y * p : Nat) : Int) := by push_cast; rfl
  rw [h1, ← Int.natCast_mod, Int.toNat_natCast]
  exact Nat.mod_le _ _

theorem pixelPair_safe (srcData destData : Mem) (width height : Nat) (pitch : Int)
    (y x : Nat) (st : ConvState) (hy : y < height) (hx : x + 2 ≤ width)
    (h : ConvSafe destData width height pitch st) :
    ConvSafe destData width height pitch
      (pixelPair srcData y ((((y * width) % UINT_MOD) * 2) % UINT_MOD)
        (mulUintLong y pitch) x st) := by
  have hpos : 0 < UINT_MOD := by decide
  have b0 : (x * 2) % UINT_MOD ≤ x * 2 := Nat.mod_le _ _
  have b1 : ((x * 2) % UINT_MOD + 1) % UINT_MOD ≤ (x * 2) % UINT_MOD + 1 := Nat.mod_le _ _
  have b2 : ((x * 2) % UINT_MOD + 2) % UINT_MOD ≤ (x * 2) % UINT_MOD + 2 := Nat.mod_le _ _
  have b3 : ((x * 2) % UINT_MOD + 3) % UINT_MOD ≤ (x * 2) % UINT_MOD + 3 := Nat.mod_le _ _
  have c0 := Nat.mod_lt (x * 2) hpos
  have c1 := Nat.mod_lt ((x * 2) % UINT_MOD + 1) hpos
  have c2 := Nat.mod_lt ((x * 2) % UINT_MOD + 2) hpos
  have c3 := Nat.mod_lt ((x * 2) % UINT_MOD + 3) hpos
  have hd := destRow_le y width
  have hrow : (y + 1) * (width * 2) ≤ height * (width * 2) := Nat.mul_le_mul_right _ hy
  have e2 : (y + 1) * (width * 2) = y * (width * 2) + width * 2 := by ring
  constructor
  · intro e he
    simp only [pixelPair, ConvState.assign, List.mem_cons] at he
    rcases he with rfl | rfl | rfl | rfl | he
    · exact ⟨hy, _, _, by omega, c3, by omega, rfl, rfl⟩
    · exact ⟨hy, _, _, by omega, c2, by omega, rfl, rfl⟩
    · exact ⟨hy, _, _, by omega, c1, by omega, rfl, rfl⟩
    · exact ⟨hy, _, _, by omega, c0, by omega, rfl, rfl⟩
    · exact h.1 e he
  · intro a ha
    simp only [pixelPair, ConvState.assign]
    rw [if_neg (by omega), if_neg (by omega), if_neg (by omega), if_neg (by omega)]
    exact h.2 a ha

theorem rowLoop_safe (srcData destData : Mem) (width height : Nat) (pitch : Int)
    (y : Nat) (hy : y < height) (hev : width % 2 = 0) (hw : width < UINT_MOD) :
    ∀ (fuel x : Nat) (st : ConvState), x % 2 = 0 → x ≤ width → (width - x) / 2 < fuel →
      ConvSafe destData width height pitch st →
      ∃ st', rowLoop srcData width y ((((y * width) % UINT_MOD) * 2) % UINT_MOD)
          (mulUintLong y pitch) fuel x st = some st' ∧
        ConvSafe destData width height pitch st' := by
  intro fuel
  induction fuel with
  | zero => intro x st _ _ hf; omega
  | succ n ih =>
    intro x st hx hle hf h
    unfold rowLoop
    by_cases hlt : x < width
    · rw [if_pos hlt]
      have hx2 : x + 2 ≤ width := by omega
      have hmod : (x + 2) % UINT_MOD = x + 2 := Nat.mod_eq_of_lt (by omega)
      rw [hmod]
      exact ih (x + 2) _ (by omega) hx2 (by omega)
        (pixelPair_safe srcData destData width height pitch y x st hy hx2 h)
    · rw [if_neg hlt]
      exact ⟨st, rfl, h⟩

theorem frameLoop_safe (srcData destData : Mem) (width height : Nat) (pitch : Int)
    (hev : width % 2 = 0) (hw : width < UINT_MOD) (hh : height < UINT_MOD) :
    ∀ (fuel y : Nat) (st : ConvState), y ≤ height → height - y < fuel →
      ConvSafe destData width height pitch st →
      ∃ st', frameLoop srcData width height pitch fuel y st = some st' ∧
        ConvSafe destData width height pitch st' := by
  have hM : UINT_MOD = 4294967296 := rfl
  intro fuel
  induction fuel with
  | zero => intro y st _ hf; omega
  | succ n ih =>
    intro y st hle hf h
    unfold frameLoop
    by_cases hlt : y < height
    · rw [if_pos hlt]
      obtain ⟨st1, hrun, h1⟩ := rowLoop_safe srcData destData width height pitch y hlt hev hw
        UINT_MOD 0 st rfl (Nat.zero_le _) (by omega) h
      simp only [hrun]
      have hmod : (y + 1) % UINT_MOD = y + 1 := Nat.mod_eq_of_lt (by omega)
      rw [hmod]
      exact ih (y + 1) st1 hlt (by omega) h1
    · rw [if_neg hlt]
      exact ⟨st, rfl, h⟩

/-- For every even `UINT` width and every `UINT` height the converter returns
in a state in which `ConvSafe` holds. -/
theorem convert_safe (srcData destData : Mem) (width height : Nat) (pitch : Int)
    (hev : width % 2 = 0) (hw : width < UINT_MOD) (hh : height < UINT_MOD) :
    ∃ st, YUY2ToUYVYWithPitch srcData destData width height pitch = some st ∧
      ConvSafe destData width height pitch st :=
  frameLoop_safe srcData destData width height pitch hev hw hh UINT_MOD 0 ⟨destData, []⟩
    (Nat.zero_le _) (by omega)
    ⟨fun e he => by simp at he, fun _ _ => rfl⟩

theorem ConvSafe.destOff_lt {destData : Mem} {width height : Nat} {pitch : Int}
    {st : ConvState} (h : ConvSafe destData width height pitch st)
    (e : Copy) (he : e ∈ st.log) : e.row < height ∧ e.destOff < width * height * 2 := by
  obtain ⟨hy, j, j', hj, _, _, hd, _⟩ := h.1 e he
  have h1 := destRow_le e.row width
  have h2 := row_lt_frame (width * 2) height e.row j hy hj
  have h3 : width * height * 2 = height * (width * 2) := by ring
  exact ⟨hy, by omega⟩

theorem ConvSafe.srcOff_lt {destData : Mem} {width height pitch : Nat}
    {st : ConvState} (h : ConvSafe destData width height (pitch : Int) st)
    (hp : width * 2 ≤ pitch) (e : Copy) (he : e ∈ st.log) :
    e.row < height ∧ e.srcOff < height * pitch := by
  obtain ⟨hy, j, j', _, _, hj', _, hs⟩ := h.1 e he
  have h1 := mulUintLong_le e.row pitch
  have h2 := row_lt_frame pitch height e.row j' hy (by omega)
  exact ⟨hy, by omega⟩

/-- C3 (amended): for an even width and a height (both `UINT` values, the
positive ones of the claim among them) the call returns, every destination offset it writes is below
`width * height * 2`, and destination bytes at or beyond `width * height * 2`
keep their old value.  When in addition no destination offset wraps
(`width * 2 <= 2^32` and the start offset `(height - 1) * width * 2` of the last
row is below `2^32`), every offset below `width * height * 2` is written, and
the offsets written while processing row `y` are exactly those of
`[y * width * 2, (y + 1) * width * 2)`. -/
theorem yuy2_writes_exactly_frame (srcData destData : Mem) (width height : Nat)
    (pitch : Int) (hev : width % 2 = 0)
    (hwM : width < UINT_MOD) (hhM : height < UINT_MOD) :
    ∃ st, YUY2ToUYVYWithPitch srcData destData width height pitch = some st ∧
      (∀ e ∈ st.log, e.row < height ∧ e.destOff < width * height * 2) ∧
      (∀ a, width * height * 2 ≤ a → st.dest a = destData a) ∧
      (width * 2 ≤ UINT_MOD → (height - 1) * (width * 2) < UINT_MOD →
        (∀ a, a < width * height * 2 → ∃ e ∈ st.log, e.destOff = a) ∧
        (∀ y, y < height → ∀ a, (∃ e ∈ st.log, e.row = y ∧ e.destOff = a) ↔
          (y * width * 2 ≤ a ∧ a < (y + 1) * width * 2))) := by
  have hsz : width * height * 2 = height * (width * 2) := by ring
  obtain ⟨st, hrun, hsafe⟩ := convert_safe srcData destData width height pitch hev hwM hhM
  refine ⟨st, hrun, hsafe.destOff_lt, ?_, ?_⟩
  · intro a ha
    exact hsafe.2 a (by omega)
  · intro hw2 hlast
    have hrow : ∀ y, y < height → y * (width * 2) < UINT_MOD := fun y hy =>
      Nat.lt_of_le_of_lt (Nat.mul_le_mul_right _ (by omega)) hlast
    obtain ⟨st', hrun', hinv⟩ := convert_inv srcData destData width height pitch
      (fun _ => hw2) hev hhM hrow
    have hst : st' = st := Option.some.inj (hrun'.symm.trans hrun)
    rw [hst] at hinv
    constructor
    · intro a ha
      exact hinv.2.2 a (by omega)
    · intro y hy a
      have e1 : y * width * 2 = y * (width * 2) := by ring
      have e2 : (y + 1) * width * 2 = y * (width * 2) + width * 2 := by ring
      rw [e1, e2]
      constructor
      · rintro ⟨e, he, rfl, rfl⟩
        obtain ⟨_, r, hr, hoff, _⟩ := hinv.log_row e he
        omega
      · rintro ⟨h1, h2⟩
        obtain ⟨e, he, hrow, hoff, _⟩ := hinv.log_cover y (a - y * (width * 2)) hy (by omega)
        exact ⟨e, he, hrow, by omega⟩

/-- C3 at 1280x720: exactly the 1,843,200 offsets of the frame are written. -/
theorem yuy2_writes_exactly_frame_witness :
    ∃ st, YUY2ToUYVYWithPitch scenarioSrc zeroMem 1280 720 2560 = some st ∧
      (∀ a, (∃ e ∈ st.log, e.destOff = a) ↔ a < 1843200) ∧
      (∀ a, 1843200 ≤ a → st.dest a = zeroMem a) := by
  obtain ⟨st, hrun, h1, h2, h3⟩ := yuy2_writes_exactly_frame scenarioSrc zeroMem 1280 720
    2560 (by decide) (by decide) (by decide)
  obtain ⟨h4, _⟩ := h3 (by decide) (by decide)
  exact ⟨st, hrun, fun a => ⟨fun ⟨e, he, hoff⟩ => hoff ▸ (h1 e he).2, h4 a⟩, h2⟩

/-- C3 as stated fails when a destination offset wraps.  For a 4 x 2^31 frame
(`width * height * 2 = 2^34`) the row offset `y * width * 2` is reduced modulo
`2^32`, so no execution writes destination offset `2^33`.  For a
(2^31 + 2) x 1 frame (`width * height * 2 = 2^32 + 4`) the index `x * 2` is
reduced modulo `2^32`, so no execution writes destination offset `2^32`. -/
theorem yuy2_writes_wrap :
    (¬ ∃ st, YUY2ToUYVYWithPitch zeroMem zeroMem 4 2147483648 8 = some st ∧
      ∀ a, a < 4 * 2147483648 * 2 → ∃ e ∈ st.log, e.destOff = a) ∧
    (¬ ∃ st, YUY2ToUYVYWithPitch zeroMem zeroMem 2147483650 1 0 = some st ∧
      ∀ a, a < 2147483650 * 1 * 2 → ∃ e ∈ st.log, e.destOff = a) := by
  have hM : UINT_MOD = 4294967296 := rfl
  constructor
  · rintro ⟨st, hrun, hall⟩
    obtain ⟨e, he, hoff⟩ := hall 8589934592 (by decide)
    have hb := frameLoop_destOff_lt zeroMem 4 2147483648 8 UINT_MOD 0 ⟨zeroMem, []⟩ st hrun
      (by intro e he; simp at he) e he
    omega
  · rintro ⟨st, hrun, hall⟩
    obtain ⟨e, he, hoff⟩ := hall 4294967296 (by decide)
    obtain ⟨st0, hrun0, hsafe⟩ := convert_safe zeroMem zeroMem 2147483650 1 0
      (by decide) (by decide) (by decide)
    have hst : st0 = st := Option.some.inj (hrun0.symm.trans hrun)
    rw [hst] at hsafe
    obtain ⟨hy, j, j', _, hj, _, hd, _⟩ := hsafe.1 e he
    have hr : e.row = 0 := by omega
    have hz : (((0 * 2147483650) % UINT_MOD) * 2) % UINT_MOD = 0 := by decide
    rw [hr, hz] at hd
    omega

/-! ## C4: pitch handling -/

/-- C4 (amended): for an even width, a height (a `UINT`) and a pitch above
`width * 2` (a `LONG`, so below `2^31`) the call returns and every source
offset it reads is below `height * pitch`.  When the start offset
`(height - 1) * width * 2` of the last destination row is below `2^32`, every
assignment of row `y` writes inside `[y * width * 2, (y + 1) * width * 2)` and
the first byte of that range is written when the width is positive.  When the
start offset `(height - 1) * pitch` of the last source row is below `2^32`,
every assignment of row `y` reads inside `[y * pitch, y * pitch + width * 2)`
and the first byte of that range is read when the width is positive. -/
theorem yuy2_pitch_handling (srcData destData : Mem) (width height pitch : Nat)
    (hev : width % 2 = 0) (hh : height < UINT_MOD)
    (hp : width * 2 < pitch) (hlong : pitch < 2147483648) :
    ∃ st, YUY2ToUYVYWithPitch srcData destData width height (pitch : Int) = some st ∧
      (∀ e ∈ st.log, e.row < height ∧ e.srcOff < height * pitch) ∧
      ((height - 1) * (width * 2) < UINT_MOD →
        (∀ e ∈ st.log, e.row * (width * 2) ≤ e.destOff ∧
          e.destOff < (e.row + 1) * (width * 2)) ∧
        (∀ y, y < height → 0 < width →
          ∃ e ∈ st.log, e.row = y ∧ e.destOff = y * (width * 2))) ∧
      ((height - 1) * pitch < UINT_MOD →
        (∀ e ∈ st.log, e.row * pitch ≤ e.srcOff ∧ e.srcOff < e.row * pitch + width * 2) ∧
        (∀ y, y < height → 0 < width →
          ∃ e ∈ st.log, e.row = y ∧ e.srcOff = y * pitch)) := by
  have hM : UINT_MOD = 4294967296 := rfl
  obtain ⟨st, hrun, hsafe⟩ := convert_safe srcData destData width height (pitch : Int) hev
    (by omega) hh
  have hdest : (height - 1) * (width * 2) < UINT_MOD →
      ConvInv srcData destData width (pitch : Int) (height * (width * 2)) st := by
    intro hlast
    have hrow : ∀ y, y < height → y * (width * 2) < UINT_MOD := fun y hy =>
      Nat.lt_of_le_of_lt (Nat.mul_le_mul_right _ (by omega)) hlast
    obtain ⟨st', hrun', hinv⟩ := convert_inv srcData destData width height (pitch : Int)
      (fun _ => by omega) hev hh hrow
    have hst : st' = st := Option.some.inj (hrun'.symm.trans hrun)
    rw [hst] at hinv
    exact hinv
  refine ⟨st, hrun, hsafe.srcOff_lt (by omega), ?_, ?_⟩
  · intro hlast
    have hinv := hdest hlast
    constructor
    · intro e he
      obtain ⟨hy, r, hr, hoff, _⟩ := hinv.log_row e he
      have e2 : (e.row + 1) * (width * 2) = e.row * (width * 2) + width * 2 := by ring
      constructor <;> omega
    · intro y hy hw
      obtain ⟨e0, he0, hr0, hd0, _⟩ := hinv.log_cover y 0 hy (by omega)
      exact ⟨e0, he0, hr0, by rw [hd0]; rfl⟩
  · intro hfit
    have hrowp : ∀ y, y < height → y * pitch < UINT_MOD := fun y hy =>
      Nat.lt_of_le_of_lt (Nat.mul_le_mul_right _ (by omega)) hfit
    have hinv := hdest
      (Nat.lt_of_le_of_lt (Nat.mul_le_mul_left _ (by omega)) hfit)
    constructor
    · intro e he
      obtain ⟨hy, r, hr, _, hsrc⟩ := hinv.log_row e he
      rw [mulUintLong_nat _ _ (hrowp _ hy)] at hsrc
      have hsw := swapOff_lt (width * 2) r (by omega) hr
      constructor <;> omega
    · intro y hy hw
      obtain ⟨e1, he1, hr1, _, hs1⟩ := hinv.log_cover y 1 hy (by omega)
      rw [mulUintLong_nat _ _ (hrowp _ hy)] at hs1
      exact ⟨e1, he1, hr1, by rw [hs1]; rfl⟩

/-- C4 at 1280x720 with a padded pitch of 2688 bytes: row `y` is read from
offset `y * 2688` and written from offset `y * 2560`, and no read reaches
offset `720 * 2688`. -/
theorem yuy2_pitch_handling_witness :
    ∃ st, YUY2ToUYVYWithPitch scenarioSrc zeroMem 1280 720 2688 = some st ∧
      (∀ e ∈ st.log, e.srcOff < 720 * 2688) ∧
      (∀ y, y < 720 →
        (∃ e ∈ st.log, e.row = y ∧ e.srcOff = y * 2688) ∧
        (∃ e ∈ st.log, e.row = y ∧ e.destOff = y * (1280 * 2))) := by
  obtain ⟨st, hrun, h1, h2, h3⟩ := yuy2_pitch_handling scenarioSrc zeroMem 1280 720 2688
    (by decide) (by decide) (by decide) (by decide)
  exact ⟨st, hrun, fun e he => (h1 e he).2,
    fun y hy => ⟨(h3 (by decide)).2 y hy (by decide), (h2 (by decide)).2 y hy (by decide)⟩⟩

/-- C4 as stated fails when a row offset wraps.  For a 2x5 frame with pitch
`2^30` the product `4 * pitch` is reduced modulo `2^32`, so an assignment of
row 4 reads below source offset `4 * pitch`.  For a 2 x (2^31 + 1) frame with
pitch 8 the destination offset `2^31 * 4` of row `2^31` is reduced modulo
`2^32`, so no assignment writes at `2^31 * 4`. -/
theorem yuy2_pitch_wraps :
    (∃ st, YUY2ToUYVYWithPitch zeroMem zeroMem 2 5 1073741824 = some st ∧
      ∃ e ∈ st.log, e.row = 4 ∧ e.srcOff < 4 * 1073741824) ∧
    (¬ ∃ st, YUY2ToUYVYWithPitch zeroMem zeroMem 2 2147483649 8 = some st ∧
      ∃ e ∈ st.log, e.row = 2147483648 ∧ e.destOff = 2147483648 * (2 * 2)) := by
  constructor
  · have key : (YUY2ToUYVYWithPitch zeroMem zeroMem 2 5 1073741824).map
        (fun st => st.log.any (fun e => decide (e.row = 4 ∧ e.srcOff < 4 * 1073741824)))
        = some true := by decide
    cases hrun : YUY2ToUYVYWithPitch zeroMem zeroMem 2 5 1073741824 with
    | none => rw [hrun] at key; simp at key
    | some st =>
      rw [hrun] at key
      simp only [Option.map_some', Option.some.injEq, List.any_eq_true,
        decide_eq_true_eq] at key
      exact ⟨st, rfl, key⟩
  · rintro ⟨st, hrun, e, he, _, hoff⟩
    have hb := frameLoop_destOff_lt zeroMem 2 2147483649 8 UINT_MOD 0 ⟨zeroMem, []⟩ st hrun
      (by intro e he; simp at he) e he
    have hM : UINT_MOD = 4294967296 := rfl
    omega

/-! ## The converter returns -/

theorem rowLoop_returns (srcData : Mem) (width y destRow srcRow : Nat)
    (hw : width + 1 < UINT_MOD) :
    ∀ (fuel x : Nat) (st : ConvState), x ≤ width + 1 → (width + 1 - x) / 2 < fuel →
      ∃ st', rowLoop srcData width y destRow srcRow fuel x st = some st' := by
  intro fuel
  induction fuel with
  | zero => intro x st _ hf; omega
  | succ n ih =>
    intro x st hle hf
    unfold rowLoop
    by_cases hlt : x < width
    · rw [if_pos hlt]
      have hmod : (x + 2) % UINT_MOD = x + 2 := Nat.mod_eq_of_lt (by omega)
      rw [hmod]
      exact ih (x + 2) _ (by omega) (by omega)
    · rw [if_neg hlt]
      exact ⟨st, rfl⟩

theorem frameLoop_returns (srcData : Mem) (width height : Nat) (pitch : Int)
    (hw : width + 1 < UINT_MOD) (hh : height < UINT_MOD) :
    ∀ (fuel y : Nat) (st : ConvState), y ≤ height → height - y < fuel →
      ∃ st', frameLoop srcData width height pitch fuel y st = some st' := by
  intro fuel
  induction fuel with
  | zero => intro y st _ hf; omega
  | succ n ih =>
    intro y st hle hf
    unfold frameLoop
    by_cases hlt : y < height
    · rw [if_pos hlt]
      obtain ⟨st1, hrun⟩ := rowLoop_returns srcData width y
        ((((y * width) % UINT_MOD) * 2) % UINT_MOD) (mulUintLong y pitch) hw
        UINT_MOD 0 st (Nat.zero_le _) (by omega)
      simp only [hrun]
      have hmod : (y + 1) % UINT_MOD = y + 1 := Nat.mod_eq_of_lt (by omega)
      rw [hmod]
      exact ih (y + 1) st1 hlt (by omega)
    · rw [if_neg hlt]
      exact ⟨st, rfl⟩

theorem frameLoop_zero_height (srcData : Mem) (width : Nat) (pitch : Int)
    (fuel y : Nat) (st : ConvState) :
    frameLoop srcData width 0 pitch (fuel + 1) y st = some st := by
  unfold frameLoop
  rw [if_neg (Nat.not_lt_zero y)]

/-- The converter returns for every `UINT` height and every `UINT` width other
than `2^32 - 1` (for which `x += 2` wraps to 0 before `x < width` fails), and
for every width when the height is 0. -/
theorem YUY2ToUYVYWithPitch_returns (srcData destData : Mem) (width height : Nat)
    (pitch : Int) (hw : width + 1 < UINT_MOD ∨ height = 0) (hh : height < UINT_MOD) :
    ∃ st, YUY2ToUYVYWithPitch srcData destData width height pitch = some st := by
  rcases hw with hw | h0
  · exact frameLoop_returns srcData width height pitch hw hh UINT_MOD 0 _ (Nat.zero_le _)
      (by omega)
  · subst h0
    exact ⟨_, frameLoop_zero_height srcData width pitch 4294967295 0 ⟨destData, []⟩⟩

open NDI in
theorem convertAndSend_spec (n : Nat) (b : Bool) (s : Sample) (app : App)
    (hw : app.width_ + 1 < UINT_MOD ∨ app.height_ = 0) (hh : app.height_ < UINT_MOD) :
    ∃ app', convertAndSend n b s app = some app' ∧
      app'.trace = app.trace ++
        [.YUY2ToUYVYWithPitch n (if b then .buffer1_ else .buffer2_),
         .send_send_video_async_v2 n
           { app.ndi_video_frame_ with p_data := if b then .buffer2_ else .buffer1_ },
         .Unlock2D n] ∧
      app'.width_ = app.width_ ∧ app'.height_ = app.height_ := by
  cases b
  · obtain ⟨c, hc⟩ := YUY2ToUYVYWithPitch_returns s.srcData app.buffer2_ app.width_
      app.height_ s.pitch hw hh
    simp only [convertAndSend, hc, Bool.false_eq_true, if_false]
    exact ⟨_, rfl, by simp [App.send, App.emit], rfl, rfl⟩
  · obtain ⟨c, hc⟩ := YUY2ToUYVYWithPitch_returns s.srcData app.buffer1_ app.width_
      app.height_ s.pitch hw hh
    simp only [convertAndSend, hc, if_true]
    exact ⟨_, rfl, by simp [App.send, App.emit], rfl, rfl⟩

theorem scratchOfParity_succ (b : Bool) (i : Nat) :
    scratchOfParity (!b) i = scratchOfParity b (i + 1) := by
  unfold scratchOfParity
  rcases Nat.mod_two_eq_zero_or_one i with h | h <;>
    cases b <;> simp [h, Nat.succ_mod_two_eq_zero_iff, Nat.add_mod]

open NDI in
theorem convertAndSend_trace (n : Nat) (b : Bool) (s : Sample) (app app' : App)
    (h : convertAndSend n b s app = some app') :
    app'.trace = app.trace ++
      [.YUY2ToUYVYWithPitch n (if b then .buffer1_ else .buffer2_),
       .send_send_video_async_v2 n
         { app.ndi_video_frame_ with p_data := if b then .buffer2_ else .buffer1_ },
       .Unlock2D n] ∧
    app'.width_ = app.width_ ∧ app'.height_ = app.height_ ∧
    app'.ndi_video_frame_ =
      { app.ndi_video_frame_ with p_data := if b then .buffer2_ else .buffer1_ } := by
  cases b
  · simp only [convertAndSend, Bool.false_eq_true, if_false] at h
    cases hc : YUY2ToUYVYWithPitch s.srcData app.buffer2_ app.width_ app.height_ s.pitch with
    | none => rw [hc] at h; simp at h
    | some c =>
      rw [hc] at h
      simp only [Option.some.injEq] at h
      subst h
      refine ⟨?_, rfl, rfl, rfl⟩
      simp [App.send, App.emit]
  · simp only [convertAndSend, if_true] at h
    cases hc : YUY2ToUYVYWithPitch s.srcData app.buffer1_ app.width_ app.height_ s.pitch with
    | none => rw [hc] at h; simp at h
    | some c =>
      rw [hc] at h
      simp only [Option.some.injEq] at h
      subst h
      refine ⟨?_, rfl, rfl, rfl⟩
      simp [App.send, App.emit]

open NDI in
theorem NDI_runLoop_frames :
    ∀ (script : List ReadResult) (n : Nat) (st : RunState),
      (st.app.width_ + 1 < UINT_MOD ∨ st.app.height_ = 0) → st.app.height_ < UINT_MOD →
      ∃ st' new, runLoop script n st = some st' ∧
        st'.app.trace = st.app.trace ++ new ∧
        (∀ m f, Event.send_send_video_async_v2 m f ∈ new →
          f.descriptor = st.app.ndi_video_frame_.descriptor) ∧
        st'.app.ndi_video_frame_.descriptor = st.app.ndi_video_frame_.descriptor := by
  intro script
  induction script with
  | nil =>
    intro n st _ _
    exact ⟨st, [], rfl, by simp, by simp, rfl⟩
  | cons r rest ih =>
    intro n st hw hh
    unfold runLoop
    by_cases hok : r.hr_ok = true
    swap
    · have hok' : r.hr_ok = false := by simpa using hok
      simp only [hok', Bool.not_false, if_true]
      exact ⟨_, [.ReadSample n, .cerr "Failed to read video sample."], rfl,
        by simp [App.emit], by simp, rfl⟩
    by_cases heos : r.endOfStream = true
    · simp only [hok, heos, Bool.not_true, Bool.false_eq_true, if_false, if_true]
      exact ⟨_, [.ReadSample n, .cout "End of stream."], rfl,
        by simp [App.emit], by simp, rfl⟩
    have heos' : r.endOfStream = false := by simpa using heos
    simp only [hok, heos', Bool.not_true, Bool.false_eq_true, if_false]
    cases hs : r.sample with
    | none =>
      simp only []
      obtain ⟨st', new, hrun, htr, hpub, hfin⟩ := ih (n + 1)
        { st with app := st.app.emit (.ReadSample n) } hw hh
      exact ⟨st', .ReadSample n :: new, hrun, by rw [htr]; simp [App.emit],
        fun m f hf => hpub m f (by simpa using hf), hfin⟩
    | some s =>
      simp only []
      by_cases hcont : s.contiguous_ok = true
      swap
      · have hcont' : s.contiguous_ok = false := by simpa using hcont
        simp only [hcont', Bool.not_false, if_true]
        exact ⟨_, [.ReadSample n, .ConvertToContiguousBuffer n,
          .cerr "Failed to convert sample to contiguous buffer."], rfl,
          by simp [App.emit], by simp, rfl⟩
      simp only [hcont, Bool.not_true, Bool.false_eq_true, if_false]
      by_cases h2D : s.as2D_ok = true
      swap
      · have h2D' : s.as2D_ok = false := by simpa using h2D
        simp only [h2D', Bool.false_eq_true, if_false]
        obtain ⟨st', new, hrun, htr, hpub, hfin⟩ := ih (n + 1)
          { st with
            app := ((st.app.emit (.ReadSample n)).emit (.ConvertToContiguousBuffer n)).emit
              (.As_IMF2DBuffer2 n)
            useBuffer0 := !st.useBuffer0 } hw hh
        exact ⟨st', [.ReadSample n, .ConvertToContiguousBuffer n, .As_IMF2DBuffer2 n] ++ new,
          hrun, by rw [htr]; simp [App.emit],
          fun m f hf => hpub m f (by simpa using hf), hfin⟩
      simp only [h2D, if_true]
      by_cases hlock : s.lock_ok = true
      swap
      · have hlock' : s.lock_ok = false := by simpa using hlock
        simp only [hlock', Bool.not_false, if_true]
        exact ⟨_, [.ReadSample n, .ConvertToContiguousBuffer n, .As_IMF2DBuffer2 n,
          .Lock2DSize n, .cerr "Failed to convert sample to contiguous buffer (2d2)."], rfl,
          by simp [App.emit], by simp, rfl⟩
      simp only [hlock, Bool.not_true, Bool.false_eq_true, if_false]
      obtain ⟨app1, hconv, _, hw1, hh1⟩ := convertAndSend_spec n st.useBuffer0 s
        ((((st.app.emit (.ReadSample n)).emit (.ConvertToContiguousBuffer n)).emit
          (.As_IMF2DBuffer2 n)).emit (.Lock2DSize n)) hw hh
      obtain ⟨htr1, _, _, hf1⟩ := convertAndSend_trace _ _ _ _ _ hconv
      obtain ⟨st', new, hrun, htr, hpub, hfin⟩ := ih (n + 1)
        { st with app := app1, useBuffer0 := !st.useBuffer0 }
        (by rw [hw1, hh1]; exact hw) (by rw [hh1]; exact hh)
      have hd1 : app1.ndi_video_frame_.descriptor = st.app.ndi_video_frame_.descriptor := by
        rw [hf1]; rfl
      simp only [hconv]
      refine ⟨st', [.ReadSample n, .ConvertToContiguousBuffer n, .As_IMF2DBuffer2 n,
        .Lock2DSize n, .YUY2ToUYVYWithPitch n (if st.useBuffer0 then .buffer1_ else .buffer2_),
        .send_send_video_async_v2 n
          { st.app.ndi_video_frame_ with
            p_data := if st.useBuffer0 then .buffer2_ else .buffer1_ },
        .Unlock2D n] ++ new, hrun, ?_, ?_, hfin.trans hd1⟩
      · rw [htr]
        simp [htr1, App.emit]
      · intro m f hf
        simp only [List.cons_append, List.nil_append, List.mem_cons, reduceCtorEq,
          false_or, Event.send_send_video_async_v2.injEq] at hf
        rcases hf with ⟨_, rfl⟩ | hf
        · rfl
        · exact (hpub m f hf).trans hd1

open NDI in
theorem runLoop_targets_of_returns :
    ∀ (script : List ReadResult) (n : Nat) (st st' : RunState),
      (∀ r ∈ script, ∀ s, r.sample = some s → s.as2D_ok = true) →
      runLoop script n st = some st' →
      ∃ targets, convertTargets st'.app.trace = convertTargets st.app.trace ++ targets ∧
        ∀ i, i < targets.length → targets[i]? = some (scratchOfParity st.useBuffer0 i) := by
  intro script
  induction script with
  | nil =>
    intro n st st' _ h
    simp only [runLoop, Option.some.injEq] at h
    subst h
    exact ⟨[], by simp, by simp⟩
  | cons r rest ih =>
    intro n st st' has h
    have hrest : ∀ r' ∈ rest, ∀ s, r'.sample = some s → s.as2D_ok = true :=
      fun r' hr' => has r' (List.mem_cons_of_mem _ hr')
    unfold runLoop at h
    by_cases hok : r.hr_ok = true
    swap
    · have hok' : r.hr_ok = false := by simpa using hok
      simp only [hok', Bool.not_false, if_true, Option.some.injEq] at h
      subst h
      exact ⟨[], by simp [App.emit, convertTargets], by simp⟩
    by_cases heos : r.endOfStream = true
    · simp only [hok, heos, Bool.not_true, Bool.false_eq_true, if_false, if_true,
        Option.some.injEq] at h
      subst h
      exact ⟨[], by simp [App.emit, convertTargets], by simp⟩
    have heos' : r.endOfStream = false := by simpa using heos
    simp only [hok, heos', Bool.not_true, Bool.false_eq_true, if_false] at h
    cases hs : r.sample with
    | none =>
      rw [hs] at h
      obtain ⟨targets, htr, hpar⟩ := ih _ _ _ hrest h
      exact ⟨targets, by rw [htr]; simp [App.emit, convertTargets], hpar⟩
    | some s =>
      have h2D := has r (List.mem_cons_self _ _) s hs
      rw [hs] at h
      simp only [h2D, if_true] at h
      by_cases hcont : s.contiguous_ok = true
      swap
      · have hcont' : s.contiguous_ok = false := by simpa using hcont
        simp only [hcont', Bool.not_false, if_true, Option.some.injEq] at h
        subst h
        exact ⟨[], by simp [App.emit, convertTargets], by simp⟩
      simp only [hcont, Bool.not_true, Bool.false_eq_true, if_false] at h
      by_cases hlock : s.lock_ok = true
      swap
      · have hlock' : s.lock_ok = false := by simpa using hlock
        simp only [hlock', Bool.not_false, if_true, Option.some.injEq] at h
        subst h
        exact ⟨[], by simp [App.emit, convertTargets], by simp⟩
      simp only [hlock, Bool.not_true, Bool.false_eq_true, if_false] at h
      cases hconv : convertAndSend n st.useBuffer0 s
          ((((st.app.emit (.ReadSample n)).emit (.ConvertToContiguousBuffer n)).emit
            (.As_IMF2DBuffer2 n)).emit (.Lock2DSize n)) with
      | none => rw [hconv] at h; simp at h
      | some app1 =>
        rw [hconv] at h
        simp only [] at h
        obtain ⟨htr1, _, _, _⟩ := convertAndSend_trace _ _ _ _ _ hconv
        obtain ⟨targets, htr, hpar⟩ := ih _ _ _ hrest h
        refine ⟨(if st.useBuffer0 then .buffer1_ else .buffer2_) :: targets, ?_, ?_⟩
        · rw [htr]
          simp [htr1, App.emit, convertTargets]
        · intro i hi
          cases i with
          | zero =>
            cases st.useBuffer0 <;> simp [scratchOfParity]
          | succ j =>
            have hj := hpar j (by simpa using hi)
            simp only [List.getElem?_cons_succ]
            rw [hj]
            exact congrArg some (scratchOfParity_succ st.useBuffer0 j)

open NDI in
theorem runLoop_terminal (t : ReadResult) (post : List ReadResult)
    (ht : t.terminal = true) :
    ∀ (pre : List ReadResult) (n : Nat) (st st' : RunState),
      (∀ r ∈ pre, r.continues = true) →
      runLoop (pre ++ t :: post) n st = some st' →
      st'.left = some (if t.hr_ok then .endOfStream else .readFailed) ∧
      (∃ before, st'.app.trace = before ++ [Event.ReadSample (n + pre.length),
        if t.hr_ok then Event.cout "End of stream."
        else Event.cerr "Failed to read video sample."]) ∧
      readIters st'.app.trace
        = readIters st.app.trace ++ List.range' n (pre.length + 1) := by
  intro pre
  induction pre with
  | nil =>
    intro n st st' _ h
    simp only [List.nil_append, runLoop] at h
    by_cases hok : t.hr_ok = true
    · have heos : t.endOfStream = true := by
        simpa [ReadResult.terminal, hok] using ht
      simp only [hok, heos, Bool.not_true, Bool.false_eq_true, if_false, if_true,
        Option.some.injEq] at h
      subst h
      exact ⟨by simp [hok], ⟨st.app.trace, by simp [App.emit, hok]⟩,
        by simp [App.emit, readIters, List.range']⟩
    · have hok' : t.hr_ok = false := by simpa using hok
      simp only [hok', Bool.not_false, if_true, Option.some.injEq] at h
      subst h
      exact ⟨by simp [hok'], ⟨st.app.trace, by simp [App.emit, hok']⟩,
        by simp [App.emit, readIters, List.range']⟩
  | cons r pre ih =>
    intro n st st' hpre h
    have hr := hpre r (List.mem_cons_self _ _)
    have hrest : ∀ r' ∈ pre, r'.continues = true :=
      fun r' hr' => hpre r' (List.mem_cons_of_mem _ hr')
    have hidx : n + 1 + pre.length = n + (r :: pre).length := by
      simp only [List.length_cons]; omega
    have hrange : List.range' n ((r :: pre).length + 1)
        = n :: List.range' (n + 1) (pre.length + 1) := by
      simp only [List.length_cons]
      exact List.range'_succ n (pre.length + 1) 1
    rw [← hidx, hrange]
    simp only [List.cons_append] at h
    unfold runLoop at h
    cases hs : r.sample with
    | none =>
      simp only [ReadResult.continues, hs, Bool.and_eq_true, Bool.not_eq_true',
        and_true] at hr
      obtain ⟨hok, heos⟩ := hr
      simp only [hok, heos, hs, Bool.not_true, Bool.false_eq_true, if_false] at h
      obtain ⟨h1, h2, h3⟩ := ih _ _ _ hrest h
      exact ⟨h1, h2, by rw [h3]; simp [App.emit, readIters]⟩
    | some s =>
      simp only [ReadResult.continues, hs, Bool.and_eq_true, Bool.not_eq_true',
        Bool.or_eq_true] at hr
      obtain ⟨⟨hok, heos⟩, hcont, hcast⟩ := hr
      simp only [hok, heos, hs, hcont, Bool.not_true, Bool.false_eq_true, if_false] at h
      by_cases h2D : s.as2D_ok = true
      swap
      · have h2D' : s.as2D_ok = false := by simpa using h2D
        simp only [h2D', Bool.false_eq_true, if_false] at h
        obtain ⟨h1, h2, h3⟩ := ih _ _ _ hrest h
        exact ⟨h1, h2, by rw [h3]; simp [App.emit, readIters]⟩
      have hlock : s.lock_ok = true := by
        rcases hcast with hc | hc
        · rw [h2D] at hc; simp at hc
        · exact hc
      simp only [h2D, hlock, if_true, Bool.not_true, Bool.false_eq_true, if_false] at h
      cases hconv : convertAndSend n st.useBuffer0 s
          ((((st.app.emit (.ReadSample n)).emit (.ConvertToContiguousBuffer n)).emit
            (.As_IMF2DBuffer2 n)).emit (.Lock2DSize n)) with
      | none => rw [hconv] at h; simp at h
      | some app1 =>
        rw [hconv] at h
        simp only [] at h
        obtain ⟨htr, _, _, _⟩ := convertAndSend_trace _ _ _ _ _ hconv
        obtain ⟨h1, h2, h3⟩ := ih _ _ _ hrest h
        exact ⟨h1, h2, by rw [h3]; simp [htr, App.emit, readIters]⟩

/-! ## C5: one publish per delivered frame -/

/-- C6 (amended): for a sequence of `ReadSample` answers in which no delivered
sample fails the cast to a 2D buffer, the destination buffers of the converter
calls of `Run` are, in order, `buffer1_, buffer2_, buffer1_, ...`: consecutive
targets differ and a target recurs exactly two frames later.  (`Run` returns on
every sequence of answers when the frame size is a `UINT` size other than the
width `2^32 - 1` with a positive height.) -/
theorem conversion_target_alternates (app : NDI.App) (script : List ReadResult)
    (has : ∀ r ∈ script, ∀ s, r.sample = some s → s.as2D_ok = true) :
    (∀ st, NDI.Run script app = some st →
      ∃ targets, convertTargets st.app.trace = convertTargets app.trace ++ targets ∧
        (∀ i, i < targets.length →
          targets[i]? = some (if i % 2 = 0 then BufPtr.buffer1_ else BufPtr.buffer2_)) ∧
        (∀ i, i + 1 < targets.length → targets[i]? ≠ targets[i + 1]?) ∧
        (∀ i, i + 2 < targets.length → targets[i]? = targets[i + 2]?)) ∧
    (app.height_ < UINT_MOD → (app.width_ + 1 < UINT_MOD ∨ app.height_ = 0) →
      ∃ st, NDI.Run script app = some st) := by
  constructor
  · intro st hrun
    obtain ⟨targets, htr, hpar⟩ := runLoop_targets_of_returns script 0
      { app := app, useBuffer0 := true, left := none } st has hrun
    have hpar' : ∀ i, i < targets.length →
        targets[i]? = some (if i % 2 = 0 then BufPtr.buffer1_ else BufPtr.buffer2_) := by
      intro i hi
      rw [hpar i hi]
      unfold scratchOfParity
      by_cases h : i % 2 = 0 <;> simp [h]
    refine ⟨targets, htr, hpar', ?_, ?_⟩
    · intro i hi
      rw [hpar' i (by omega), hpar' (i + 1) hi]
      rcases Nat.mod_two_eq_zero_or_one i with h | h
      · have h1 : (i + 1) % 2 = 1 := by omega
        simp [h, h1]
      · have h1 : (i + 1) % 2 = 0 := by omega
        simp [h, h1]
    · intro i hi
      rw [hpar' i (by omega), hpar' (i + 2) hi]
      have h2 : (i + 2) % 2 = i % 2 := by omega
      rw [h2]
  · intro hh hw
    obtain ⟨st, _, hrun, _⟩ := NDI_runLoop_frames script 0
      { app := app, useBuffer0 := true, left := none } hw hh
    exact ⟨st, hrun⟩

/-- C6 on four delivered frames: `Run` returns and the targets are `buffer1_,
buffer2_, buffer1_, buffer2_`, each of the parity of its position. -/
theorem conversion_target_alternates_witness :
    ∃ st targets, NDI.Run (List.replicate 4 frame2x1) (NDI.app2x1 zeroMem zeroMem) = some st ∧
      convertTargets st.app.trace = targets ∧
      targets = [.buffer1_, .buffer2_, .buffer1_, .buffer2_] ∧
      (∀ i, i < targets.length →
        targets[i]? = some (if i % 2 = 0 then BufPtr.buffer1_ else BufPtr.buffer2_)) := by
  have h := conversion_target_alternates (NDI.app2x1 zeroMem zeroMem)
    (List.replicate 4 frame2x1) (by decide)
  obtain ⟨st, hrun⟩ := h.2 (by decide) (by decide)
  obtain ⟨targets, htr, hpar, _, _⟩ := h.1 st hrun
  have htr' : convertTargets st.app.trace = targets := htr
  have hval : (NDI.Run (List.replicate 4 frame2x1) (NDI.app2x1 zeroMem zeroMem)).map
      (fun st => convertTargets st.app.trace)
      = some [.buffer1_, .buffer2_, .buffer1_, .buffer2_] := by decide
  rw [hrun] at hval
  exact ⟨st, targets, hrun, htr', htr'.symm.trans (Option.some.inj hval), hpar⟩

/-- C6 as stated fails when a delivered sample fails the cast to a 2D buffer:
line 391 flips `useBuffer0` although nothing was converted.  Of three samples
read in a row, the second failing the cast, the first and the third are
converted (and published, iterations 0 and 2), both into `buffer1_`. -/
theorem conversion_target_repeats_after_failed_cast :
    (NDI.Run [frame2x1, failedCastAnswer, frame2x1] (NDI.app2x1 zeroMem zeroMem)).map
      (fun st => (convertTargets st.app.trace, convertIters st.app.trace,
        publishIters st.app.trace, readIters st.app.trace))
      = some ([.buffer1_, .buffer1_], [0, 2], [0, 2], [0, 1, 2]) := by
  decide

/-! ## C2: which buffer is published -/

/-- C2 (the code at the failing input): in the first iteration, on a delivered
2x1 frame with the bytes `10 80 20 90`, `Run` converts into `buffer1_` and then
calls `send_send_video_async_v2` with `p_data = buffer2_`.  The bytes handed to
the sink are those `buffer2_` held before the loop (`b2`), the conversion
`80 10 90 20` is in `buffer1_`, and `buffer2_` is unchanged. -/
theorem first_publish_is_the_unfilled_buffer (b1 b2 : Mem) :
    ∃ st, NDI.Run [frame2x1] (NDI.app2x1 b1 b2) = some st ∧
      st.app.trace =
        [.ReadSample 0, .ConvertToContiguousBuffer 0, .As_IMF2DBuffer2 0, .Lock2DSize 0,
         .YUY2ToUYVYWithPitch 0 .buffer1_,
         .send_send_video_async_v2 0
           { xres := 2, yres := 1, FourCC := .NDIlib_FourCC_type_UYVY
             frame_rate_N := 60000, frame_rate_D := 1000, line_stride_in_bytes := 4
             p_data := .buffer2_ },
         .Unlock2D 0] ∧
      st.app.sent = [b2] ∧
      st.app.buffer2_ = b2 ∧
      st.app.buffer1_ 0 = 0x80 ∧ st.app.buffer1_ 1 = 0x10 ∧
      st.app.buffer1_ 2 = 0x90 ∧ st.app.buffer1_ 3 = 0x20 :=
  ⟨_, rfl, rfl, rfl, rfl, rfl, rfl, rfl, rfl⟩

/-! ## C7: the copy into the staging texture -/

/-- C7 (the code at two failing inputs), for a 2x2 frame.  With source pitch 4
and `RowPitch` 8 the copy is one `memcpy` of `height_ * pitch = 8` bytes, so
the first byte of mapped row 1 (offset `1 * 8`) is not the first byte of frame
row 1 (source offset `1 * 4`): it is never written.  With source pitch 8 and
`RowPitch` 4 the `memcpy` has 16 bytes and writes offset 8, which is at
`height_ * RowPitch`. -/
theorem staging_copy_ignores_RowPitch :
    (.memcpy 0 8 ∈ (DX11.Run [DX11.tick 4 8] DX11.app2x2).app.trace ∧
      (DX11.Run [DX11.tick 4 8] DX11.app2x2).app.webcamStagingTexture (1 * 8 + 0)
        ≠ countingMem (1 * 4 + 0) ∧
      (DX11.Run [DX11.tick 4 8] DX11.app2x2).app.webcamStagingTexture (1 * 8 + 0)
        = DX11.app2x2.webcamStagingTexture (1 * 8 + 0)) ∧
    (.memcpy 0 16 ∈ (DX11.Run [DX11.tick 8 4] DX11.app2x2).app.trace ∧
      (DX11.Run [DX11.tick 8 4] DX11.app2x2).app.webcamStagingTexture (2 * 4)
        = countingMem (2 * 4) ∧
      (DX11.Run [DX11.tick 8 4] DX11.app2x2).app.webcamStagingTexture (2 * 4)
        ≠ DX11.app2x2.webcamStagingTexture (2 * 4)) := by
  decide

/-! ## C10: sink configuration failure -/

/-- C10 (the code at the failing input): when `D3D11CreateDevice` fails,
`Initialize` does not return false.  `SetupD3D11` prints a line and goes on to
the next setup step, the `QueryInterface` call for `ID3D11Device5`, which is
made through the null `_device`. -/
theorem initialize_goes_on_after_device_creation_failure :
    (DX11.Initialize DX11.envNoDevice DX11.app0).1 = .nullDeref ∧
    (DX11.Initialize DX11.envNoDevice DX11.app0).2.trace =
      [.MFStartup, .D3D11CreateDevice, .cerr "Failed to crate D3D11 device and context.",
       .QueryInterface_ID3D11Device5] := by
  decide

/-- The sibling branches of `SetupD3D11`: when the device was created and one
of the two interface upgrades fails, `SetupD3D11` returns false. -/
theorem SetupD3D11_upgrade_failure (env : DX11.D3DEnv) (app : DX11.App)
    (hdev : env.D3D11CreateDevice_ok = true)
    (hup : env.QueryInterface_ID3D11Device5_ok = false ∨
      env.QueryInterface_ID3D11DeviceContext4_ok = false) :
    (DX11.SetupD3D11 env app).1 = .ret false := by
  unfold DX11.SetupD3D11
  rcases hup with h | h
  · simp [hdev, h]
  · cases h5 : env.QueryInterface_ID3D11Device5_ok <;> simp [hdev, h, h5]

/-! ## C9: order of the calls of `Cleanup` -/

/-- C9: the calls of `Cleanup` are, in this order, the null publish
`send_send_video_async_v2(ndi_sender_, NULL)`, `send_destroy`, `destroy`, the
release of `buffer1_` and of `buffer2_` (each when non-null) and `MFShutdown`;
so no `_aligned_free` precedes `send_destroy` or the null publish. -/
theorem cleanup_publishes_null_before_destroy (b1 b2 : Bool) (app : NDI.App) :
    (NDI.Cleanup b1 b2 app).trace = app.trace ++
      ([.send_send_video_async_v2_NULL, .send_destroy, .ndi_destroy] ++
        (if b1 then [.cout "Freed buffer 1", .aligned_free .buffer1_] else []) ++
        (if b2 then [.cout "Freed buffer 2", .aligned_free .buffer2_] else []) ++
        [.MFShutdown]) ∧
    ((NDI.Cleanup b1 b2 app).trace.drop app.trace.length)[0]?
      = some .send_send_video_async_v2_NULL ∧
    ((NDI.Cleanup b1 b2 app).trace.drop app.trace.length)[1]? = some .send_destroy ∧
    (∀ i p, ((NDI.Cleanup b1 b2 app).trace.drop app.trace.length)[i]?
      = some (.aligned_free p) → 1 < i) ∧
    (Event.aligned_free .buffer1_ ∈ (NDI.Cleanup b1 b2 app).trace.drop app.trace.length
      ↔ b1 = true) ∧
    (Event.aligned_free .buffer2_ ∈ (NDI.Cleanup b1 b2 app).trace.drop app.trace.length
      ↔ b2 = true) := by
  have htr : (NDI.Cleanup b1 b2 app).trace = app.trace ++
      ([.send_send_video_async_v2_NULL, .send_destroy, .ndi_destroy] ++
        (if b1 then [.cout "Freed buffer 1", .aligned_free .buffer1_] else []) ++
        (if b2 then [.cout "Freed buffer 2", .aligned_free .buffer2_] else []) ++
        [.MFShutdown]) := by
    cases b1 <;> cases b2 <;>
      simp [NDI.Cleanup, NDI.DestroyBuffers, NDI.CleanupNDI, NDI.App.emit]
  refine ⟨htr, ?_⟩
  rw [htr, List.drop_left]
  refine ⟨?_, ?_, ?_, ?_, ?_⟩
  · cases b1 <;> cases b2 <;> rfl
  · cases b1 <;> cases b2 <;> rfl
  · intro i p h
    rcases i with _ | _ | i
    · cases b1 <;> cases b2 <;> simp at h
    · cases b1 <;> cases b2 <;> simp at h
    · omega
  · cases b1 <;> cases b2 <;> simp
  · cases b1 <;> cases b2 <;> simp

/-! ## C8: a read failure and the exit status -/

/-- C8 as stated fails: the exit status of `main` after a read failure equals
the exit status after a normal end of stream (both are 0). -/
theorem read_failure_exit_status_equals_end_of_stream :
    (NDI.main NDI.envOk [readFailureAnswer] NDI.app0).map Prod.fst
      = (NDI.main NDI.envOk [endOfStreamAnswer] NDI.app0).map Prod.fst ∧
    (NDI.main NDI.envOk [readFailureAnswer] NDI.app0).map Prod.fst = some 0 := by
  decide

/-- C8 (amended): let `Initialize` succeed and let `Run` return on a sequence of
`ReadSample` answers whose first terminal answer `t` (a read failure or the
end-of-stream flag) follows answers `pre` after which the loop goes on.  Then
the loop is left for the reason `t` gives; the last two things `Run` does are
the call of `ReadSample` in iteration `|pre|` and the line it prints
(`Failed to read video sample.` on `std::cerr` for a read failure,
`End of stream.` on `std::cout` otherwise); `ReadSample` is called once in each
of the iterations `0, ..., |pre|` and never again; and `main` runs `Cleanup` on
the object `Run` leaves and returns exit status 0, in both cases. -/
theorem read_failure_is_not_propagated (env : NDI.Env) (app app1 : NDI.App)
    (pre post : List ReadResult) (t : ReadResult) (st : NDI.RunState)
    (hinit : NDI.Initialize env app = (true, app1))
    (hpre : ∀ r ∈ pre, r.continues = true) (ht : t.terminal = true)
    (hrun : NDI.Run (pre ++ t :: post) app1 = some st) :
    st.left = some (if t.hr_ok then .endOfStream else .readFailed) ∧
    (∃ before, st.app.trace = before ++ [Event.ReadSample pre.length,
      if t.hr_ok then Event.cout "End of stream."
      else Event.cerr "Failed to read video sample."]) ∧
    readIters st.app.trace = readIters app1.trace ++ List.range (pre.length + 1) ∧
    NDI.main env (pre ++ t :: post) app = some (0, NDI.Cleanup true true st.app) := by
  obtain ⟨h1, h2, h3⟩ := runLoop_terminal t post ht pre 0
    { app := app1, useBuffer0 := true, left := none } st hpre hrun
  rw [Nat.zero_add] at h2
  refine ⟨h1, h2, ?_, ?_⟩
  · rw [h3, List.range_eq_range']
  · simp only [NDI.main, hinit, hrun, h1]

/-- C8 on the 2x1 device, a read failure after one delivered frame: `Run`
returns with the reason `readFailed`, `ReadSample` was called in the
iterations 0 and 1 only, and `main` returns 0 after `Cleanup`. -/
theorem read_failure_is_not_propagated_witness :
    ∃ st, NDI.Run [frame2x1, readFailureAnswer] NDI.appReady = some st ∧
      st.left = some .readFailed ∧
      readIters st.app.trace = [0, 1] ∧
      NDI.main NDI.envOk [frame2x1, readFailureAnswer] NDI.app0
        = some (0, NDI.Cleanup true true st.app) := by
  have hsome : (NDI.Run [frame2x1, readFailureAnswer] NDI.appReady).isSome = true := by
    decide
  have hrun := (Option.some_get hsome).symm
  obtain ⟨h1, _, h3, h4⟩ := read_failure_is_not_propagated NDI.envOk NDI.app0 NDI.appReady
    [frame2x1] [] readFailureAnswer _ (Prod.ext (by decide) rfl) (by decide) (by decide) hrun
  exact ⟨_, hrun, h1, h3.trans (by decide), h4⟩

/-! ## C11: the stop signal -/

open DX11 in
theorem DX11_runLoop_escape (t : Tick) (post : List Tick) (ht : t.escape = true) :
    ∀ (pre : List Tick) (n : Nat) (st : RunState),
      (∀ u ∈ pre, u.continues = true) →
      ∃ new, (runLoop (pre ++ t :: post) n st).app.trace = st.app.trace ++ new ∧
        pollEvents new =
          (List.range' n pre.length).flatMap
            (fun i => [Event.GetAsyncKeyState i, Event.ReadSample i]) ++
          [Event.GetAsyncKeyState (n + pre.length)] ∧
        (∀ i ∈ copyIters new, i < n + pre.length) ∧
        (runLoop (pre ++ t :: post) n st).left = some .escapeKey := by
  intro pre
  induction pre with
  | nil =>
    intro n st _
    refine ⟨[.GetAsyncKeyState n], ?_, ?_, ?_, ?_⟩ <;>
      simp [runLoop, ht, App.emit, pollEvents, copyIters]
  | cons u pre ih =>
    intro n st hpre
    have hu := hpre u (List.mem_cons_self _ _)
    have hrest : ∀ u' ∈ pre, u'.continues = true :=
      fun u' hu' => hpre u' (List.mem_cons_of_mem _ hu')
    have hlen : n + 1 + pre.length = n + (pre.length + 1) := by omega
    simp only [List.length_cons]
    simp only [Tick.continues, Bool.and_eq_true, Bool.not_eq_true'] at hu
    obtain ⟨⟨⟨hesc, hok⟩, heos⟩, hs⟩ := hu
    cases hsample : u.read.sample with
    | none =>
      obtain ⟨new, htr, hpoll, hcopy, hleft⟩ := ih (n + 1)
        { st with app := (st.app.emit (.GetAsyncKeyState n)).emit (.ReadSample n) } hrest
      refine ⟨[.GetAsyncKeyState n, .ReadSample n] ++ new, ?_, ?_, ?_, ?_⟩
      · simp only [List.cons_append, runLoop, hesc, hok, heos, hsample, Bool.not_true,
          Bool.false_eq_true, if_false]
        refine htr.trans ?_
        simp [App.emit]
      · simp only [pollEvents, List.filter_append] at hpoll ⊢
        rw [hpoll, hlen]
        simp [List.range'_succ]
      · intro i hi
        have hc : ∀ l : List Event, copyIters l = copyIters new → i ∈ copyIters l →
            i < n + (pre.length + 1) := fun l hl hil => by
          have := hcopy i (hl ▸ hil)
          omega
        exact hc _ (by simp [copyIters]) hi
      · simp only [List.cons_append, runLoop, hesc, hok, heos, hsample, Bool.not_true,
          Bool.false_eq_true, if_false]
        exact hleft
    | some s =>
      rw [hsample] at hs
      simp only [Bool.and_eq_true, Bool.or_eq_true, Bool.not_eq_true'] at hs
      obtain ⟨hcont, h2⟩ := hs
      rcases h2 with h2D | ⟨hlock, hmap⟩
      · obtain ⟨new, htr, hpoll, hcopy, hleft⟩ := ih (n + 1)
          { st with
            app := (((st.app.emit (.GetAsyncKeyState n)).emit (.ReadSample n)).emit
              (.ConvertToContiguousBuffer n)).emit (.As_IMF2DBuffer2 n)
            useBuffer0 := !st.useBuffer0 } hrest
        refine ⟨[.GetAsyncKeyState n, .ReadSample n, .ConvertToContiguousBuffer n,
          .As_IMF2DBuffer2 n] ++ new, ?_, ?_, ?_, ?_⟩
        · simp only [List.cons_append, runLoop, hesc, hok, heos, hsample, hcont, h2D,
            Bool.not_true, Bool.false_eq_true, if_false]
          refine htr.trans ?_
          simp [App.emit]
        · simp only [pollEvents, List.filter_append] at hpoll ⊢
          rw [hpoll, hlen]
          simp [List.range'_succ]
        · intro i hi
          have hc : ∀ l : List Event, copyIters l = copyIters new → i ∈ copyIters l →
              i < n + (pre.length + 1) := fun l hl hil => by
            have := hcopy i (hl ▸ hil)
            omega
          exact hc _ (by simp [copyIters]) hi
        · simp only [List.cons_append, runLoop, hesc, hok, heos, hsample, hcont, h2D,
            Bool.not_true, Bool.false_eq_true, if_false]
          exact hleft
      · by_cases h2D : s.as2D_ok = true
        swap
        · have h2D' : s.as2D_ok = false := by simpa using h2D
          obtain ⟨new, htr, hpoll, hcopy, hleft⟩ := ih (n + 1)
            { st with
              app := (((st.app.emit (.GetAsyncKeyState n)).emit (.ReadSample n)).emit
                (.ConvertToContiguousBuffer n)).emit (.As_IMF2DBuffer2 n)
              useBuffer0 := !st.useBuffer0 } hrest
          refine ⟨[.GetAsyncKeyState n, .ReadSample n, .ConvertToContiguousBuffer n,
            .As_IMF2DBuffer2 n] ++ new, ?_, ?_, ?_, ?_⟩
          · simp only [List.cons_append, runLoop, hesc, hok, heos, hsample, hcont, h2D',
              Bool.not_true, Bool.false_eq_true, if_false]
            refine htr.trans ?_
            simp [App.emit]
          · simp only [pollEvents, List.filter_append] at hpoll ⊢
            rw [hpoll, hlen]
            simp [List.range'_succ]
          · intro i hi
            have hc : ∀ l : List Event, copyIters l = copyIters new → i ∈ copyIters l →
                i < n + (pre.length + 1) := fun l hl hil => by
              have := hcopy i (hl ▸ hil)
              omega
            exact hc _ (by simp [copyIters]) hi
          · simp only [List.cons_append, runLoop, hesc, hok, heos, hsample, hcont, h2D',
              Bool.not_true, Bool.false_eq_true, if_false]
            exact hleft
        · obtain ⟨new, htr, hpoll, hcopy, hleft⟩ := ih (n + 1)
            { st with
              app := publish n s ((((((st.app.emit (.GetAsyncKeyState n)).emit
                (.ReadSample n)).emit (.ConvertToContiguousBuffer n)).emit
                (.As_IMF2DBuffer2 n)).emit (.Lock2DSize n)).emit (.Map n))
              useBuffer0 := !st.useBuffer0 } hrest
          refine ⟨[.GetAsyncKeyState n, .ReadSample n, .ConvertToContiguousBuffer n,
            .As_IMF2DBuffer2 n, .Lock2DSize n, .Map n,
            .memcpy n (bufferSize st.app.height_ s.pitch), .Unmap n, .Unlock2D n,
            .CopyResource n] ++ new, ?_, ?_, ?_, ?_⟩
          · simp only [List.cons_append, runLoop, hesc, hok, heos, hsample, hcont, h2D,
              hlock, hmap, Bool.not_true, Bool.false_eq_true, if_false, if_true]
            refine htr.trans ?_
            simp [App.emit, publish]
          · simp only [pollEvents, List.filter_append] at hpoll ⊢
            rw [hpoll, hlen]
            simp [List.range'_succ]
          · intro i hi
            have hc : copyIters ([.GetAsyncKeyState n, .ReadSample n,
                .ConvertToContiguousBuffer n, .As_IMF2DBuffer2 n, .Lock2DSize n, .Map n,
                .memcpy n (bufferSize st.app.height_ s.pitch), .Unmap n, .Unlock2D n,
                .CopyResource n] ++ new) = n :: n :: copyIters new := by
              simp [copyIters]
            rw [hc] at hi
            simp only [List.mem_cons] at hi
            rcases hi with rfl | rfl | hi
            · omega
            · omega
            · have := hcopy i hi
              omega
          · simp only [List.cons_append, runLoop, hesc, hok, heos, hsample, hcont, h2D,
              hlock, hmap, Bool.not_true, Bool.false_eq_true, if_false, if_true]
            exact hleft

open NDI in
theorem NDI_runLoop_polls_nothing :
    ∀ (script : List ReadResult) (n : Nat) (st st' : RunState),
      runLoop script n st = some st' →
      keyIters st'.app.trace = keyIters st.app.trace ∧
      (st.left ≠ some .escapeKey → st'.left ≠ some .escapeKey) := by
  intro script
  induction script with
  | nil =>
    intro n st st' h
    simp only [runLoop, Option.some.injEq] at h
    subst h
    exact ⟨rfl, id⟩
  | cons r rest ih =>
    intro n st st' h
    unfold runLoop at h
    by_cases hok : r.hr_ok = true
    swap
    · have hok' : r.hr_ok = false := by simpa using hok
      simp only [hok', Bool.not_false, if_true, Option.some.injEq] at h
      subst h
      exact ⟨by simp [App.emit, keyIters], fun _ => by simp⟩
    by_cases heos : r.endOfStream = true
    · simp only [hok, heos, Bool.not_true, Bool.false_eq_true, if_false, if_true,
        Option.some.injEq] at h
      subst h
      exact ⟨by simp [App.emit, keyIters], fun _ => by simp⟩
    have heos' : r.endOfStream = false := by simpa using heos
    simp only [hok, heos', Bool.not_true, Bool.false_eq_true, if_false] at h
    cases hs : r.sample with
    | none =>
      rw [hs] at h
      obtain ⟨h1, h2⟩ := ih _ _ _ h
      exact ⟨h1.trans (by simp [App.emit, keyIters]), h2⟩
    | some s =>
      rw [hs] at h
      simp only [] at h
      by_cases hcont : s.contiguous_ok = true
      swap
      · have hcont' : s.contiguous_ok = false := by simpa using hcont
        simp only [hcont', Bool.not_false, if_true, Option.some.injEq] at h
        subst h
        exact ⟨by simp [App.emit, keyIters], fun _ => by simp⟩
      simp only [hcont, Bool.not_true, Bool.false_eq_true, if_false] at h
      by_cases h2D : s.as2D_ok = true
      swap
      · have h2D' : s.as2D_ok = false := by simpa using h2D
        simp only [h2D', Bool.false_eq_true, if_false] at h
        obtain ⟨h1, h2⟩ := ih _ _ _ h
        exact ⟨h1.trans (by simp [App.emit, keyIters]), h2⟩
      simp only [h2D, if_true] at h
      by_cases hlock : s.lock_ok = true
      swap
      · have hlock' : s.lock_ok = false := by simpa using hlock
        simp only [hlock', Bool.not_false, if_true, Option.some.injEq] at h
        subst h
        exact ⟨by simp [App.emit, keyIters], fun _ => by simp⟩
      simp only [hlock, Bool.not_true, Bool.false_eq_true, if_false] at h
      cases hconv : convertAndSend n st.useBuffer0 s
          ((((st.app.emit (.ReadSample n)).emit (.ConvertToContiguousBuffer n)).emit
            (.As_IMF2DBuffer2 n)).emit (.Lock2DSize n)) with
      | none => rw [hconv] at h; simp at h
      | some app1 =>
        rw [hconv] at h
        simp only [] at h
        obtain ⟨htr, _, _, _⟩ := convertAndSend_trace _ _ _ _ _ hconv
        obtain ⟨h1, h2⟩ := ih _ _ _ h
        exact ⟨h1.trans (by simp [htr, App.emit, keyIters]), h2⟩

/-- C11 (amended): the shared-texture pump checks the escape key
(`GetAsyncKeyState(VK_ESCAPE)`) once at the start of every loop iteration,
before `ReadSample`; when the key is down at the start of an iteration (after
iterations `pre` that went on), that iteration makes no read and no copy into
the staging or the shared texture and the loop is left.  The network-sink pump
makes no such check in any iteration and never leaves its loop on a stop
signal. -/
theorem stop_signal_is_polled_by_the_shared_texture_pump (app : DX11.App)
    (pre post : List DX11.Tick) (t : DX11.Tick)
    (hpre : ∀ u ∈ pre, u.continues = true) (ht : t.escape = true) :
    (∃ new, (DX11.Run (pre ++ t :: post) app).app.trace
        = app.trace ++ Event.GetSharedTextureHandle :: new ∧
      pollEvents new =
        (List.range pre.length).flatMap
          (fun i => [Event.GetAsyncKeyState i, Event.ReadSample i]) ++
        [Event.GetAsyncKeyState pre.length] ∧
      (∀ i ∈ copyIters new, i < pre.length) ∧
      (DX11.Run (pre ++ t :: post) app).left = some .escapeKey) ∧
    (∀ (napp : NDI.App) (script : List ReadResult) (st : NDI.RunState),
      NDI.Run script napp = some st →
      keyIters st.app.trace = keyIters napp.trace ∧ st.left ≠ some .escapeKey) := by
  constructor
  · obtain ⟨new, htr, hpoll, hcopy, hleft⟩ := DX11_runLoop_escape t post ht pre 0
      { app := app.emit .GetSharedTextureHandle, useBuffer0 := true, left := none } hpre
    refine ⟨new, ?_, ?_, ?_, hleft⟩
    · refine htr.trans ?_
      simp [DX11.App.emit]
    · rw [hpoll, List.range_eq_range']
      simp
    · intro i hi
      have := hcopy i hi
      omega
  · intro napp script st hrun
    obtain ⟨h1, h2⟩ := NDI_runLoop_polls_nothing script 0 _ st hrun
    exact ⟨h1, h2 (by simp)⟩

/-- C11 on two delivered frames followed by an iteration with the escape key
down: three checks, two reads, no copy in the last iteration. -/
theorem stop_signal_is_polled_by_the_shared_texture_pump_witness :
    ∃ new, (DX11.Run ([DX11.tick 4 4, DX11.tick 4 4] ++ DX11.escapeTick :: [DX11.tick 4 4])
        DX11.app2x2).app.trace = DX11.app2x2.trace ++ Event.GetSharedTextureHandle :: new ∧
      pollEvents new =
        [.GetAsyncKeyState 0, .ReadSample 0, .GetAsyncKeyState 1, .ReadSample 1,
         .GetAsyncKeyState 2] ∧
      (∀ i ∈ copyIters new, i < 2) ∧
      (DX11.Run ([DX11.tick 4 4, DX11.tick 4 4] ++ DX11.escapeTick :: [DX11.tick 4 4])
        DX11.app2x2).left = some .escapeKey :=
  (stop_signal_is_polled_by_the_shared_texture_pump DX11.app2x2
    [DX11.tick 4 4, DX11.tick 4 4] [DX11.tick 4 4] DX11.escapeTick (by decide) (by decide)).1

/-- C11 as stated fails for the network-sink pump: its first iteration reads
and publishes without any stop-signal check. -/
theorem network_sink_pump_polls_no_stop_signal :
    (NDI.Run [frame2x1] (NDI.app2x1 zeroMem zeroMem)).map
      (fun st => (keyIters st.app.trace, readIters st.app.trace, publishIters st.app.trace))
      = some ([], [0], [0]) := by
  decide

/-! ## C12: the frame descriptor of a publish -/

open NDI in
theorem SetupMediaFoundation_fields (env : Env) (app : App) :
    (SetupMediaFoundation env app).2.width_ = app.width_ ∧
    (SetupMediaFoundation env app).2.height_ = app.height_ ∧
    (SetupMediaFoundation env app).2.ndi_video_frame_ = app.ndi_video_frame_ := by
  unfold SetupMediaFoundation
  simp only [App.fail, App.emit]
  split <;> exact ⟨rfl, rfl, rfl⟩

open NDI in
theorem LoadNDIRuntime_fields (env : NDIEnv) (app : App) :
    (LoadNDIRuntime env app).2.width_ = app.width_ ∧
    (LoadNDIRuntime env app).2.height_ = app.height_ ∧
    (LoadNDIRuntime env app).2.ndi_video_frame_ = app.ndi_video_frame_ := by
  unfold LoadNDIRuntime
  simp only [App.fail, App.emit]
  split_ifs <;> exact ⟨rfl, rfl, rfl⟩

open NDI in
theorem CreateNDISender_fields (env : NDIEnv) (app : App) :
    (CreateNDISender env app).2.width_ = app.width_ ∧
    (CreateNDISender env app).2.height_ = app.height_ ∧
    (CreateNDISender env app).2.ndi_video_frame_ = app.ndi_video_frame_ := by
  unfold CreateNDISender
  simp only [App.fail, App.emit]
  split <;> exact ⟨rfl, rfl, rfl⟩

open NDI in
theorem SetupNDI_fields (env : NDIEnv) (app app' : App)
    (h : SetupNDI env app = (true, app')) :
    app'.width_ = app.width_ ∧ app'.height_ = app.height_ ∧
    app'.ndi_video_frame_.descriptor =
      (toInt32 app.width_, toInt32 app.height_, FourCC.NDIlib_FourCC_type_UYVY, 60000, 1000,
        toInt32 ((app.width_ * 2) % UINT_MOD)) := by
  unfold SetupNDI at h
  obtain ⟨hw1, hh1, hf1⟩ := LoadNDIRuntime_fields env app
  rcases h1 : LoadNDIRuntime env app with ⟨b1, a1⟩
  rw [h1] at h hw1 hh1 hf1
  simp only at hw1 hh1 hf1
  cases b1
  · exact absurd (congrArg Prod.fst h) Bool.false_ne_true
  · simp only [App.fail] at h
    split_ifs at h
    · exact absurd (congrArg Prod.fst h) Bool.false_ne_true
    · obtain ⟨hw2, hh2, hf2⟩ := CreateNDISender_fields env (a1.emit .NDIlib_init)
      rcases h2 : CreateNDISender env (a1.emit .NDIlib_init) with ⟨b2, a2⟩
      rw [h2] at h hw2 hh2 hf2
      simp only at hw2 hh2 hf2
      cases b2
      · exact absurd (congrArg Prod.fst h) Bool.false_ne_true
      · have h' := congrArg Prod.snd h
        simp only at h'
        subst h'
        have hw3 : a2.width_ = app.width_ := hw2.trans hw1
        have hh3 : a2.height_ = app.height_ := hh2.trans hh1
        refine ⟨hw3, hh3, ?_⟩
        simp only [InitializeNDIFrame, NDIlib_video_frame_v2_t.descriptor, hw3, hh3]

open NDI in
theorem Initialize_descriptor (env : Env) (app0 app : App)
    (h : Initialize env app0 = (true, app)) :
    app.ndi_video_frame_.descriptor =
      (toInt32 app.width_, toInt32 app.height_, FourCC.NDIlib_FourCC_type_UYVY, 60000, 1000,
        toInt32 ((app.width_ * 2) % UINT_MOD)) := by
  unfold Initialize at h
  rcases h1 : SetupMediaFoundation env app0 with ⟨b1, a1⟩
  rw [h1] at h
  cases b1
  · exact absurd (congrArg Prod.fst h) Bool.false_ne_true
  simp only at h
  rcases h2 : SetupCapture env.capture a1 with ⟨b2, a2⟩
  rw [h2] at h
  cases b2
  · exact absurd (congrArg Prod.fst h) Bool.false_ne_true
  simp only at h
  rcases h3 : SetupNDI env.ndi a2 with ⟨b3, a3⟩
  rw [h3] at h
  cases b3
  · exact absurd (congrArg Prod.fst h) Bool.false_ne_true
  simp only at h
  obtain ⟨hw3, hh3, hf3⟩ := SetupNDI_fields _ _ _ h3
  have h' := congrArg Prod.snd h
  simp only [CreateBuffers] at h'
  subst h'
  show a3.ndi_video_frame_.descriptor = (toInt32 a3.width_, toInt32 a3.height_, _, _, _,
    toInt32 ((a3.width_ * 2) % UINT_MOD))
  rw [hf3, hw3, hh3]

theorem toInt32_of_lt (n : Nat) (h : n < 2147483648) : toInt32 n = (n : Int) := by
  have hM : UINT_MOD = 4294967296 := rfl
  have hmod : n % UINT_MOD = n := Nat.mod_eq_of_lt (by omega)
  unfold toInt32
  rw [hmod, if_pos h]

/-- C12 (amended): after a successful `Initialize` with a frame size that fits
the descriptor's `int` fields (`width_ * 2` and `height_` below `2^31`), `Run`
returns on every sequence of `ReadSample` answers, and the descriptor handed
to each `send_send_video_async_v2` has `FourCC` UYVY, `xres = width_`,
`yres = height_`, `line_stride_in_bytes = width_ * 2`, frame rate 60000/1000;
the descriptor after the loop and every descriptor published agree with the
one before the loop in every field but `p_data`. -/
theorem publish_descriptor_is_fixed (env : NDI.Env) (app0 app : NDI.App)
    (script : List ReadResult)
    (hinit : NDI.Initialize env app0 = (true, app))
    (hw : app.width_ * 2 < 2147483648) (hh : app.height_ < 2147483648) :
    ∃ st new, NDI.Run script app = some st ∧ st.app.trace = app.trace ++ new ∧
      (∀ n f, Event.send_send_video_async_v2 n f ∈ new →
        f.FourCC = .NDIlib_FourCC_type_UYVY ∧ f.xres = (app.width_ : Int) ∧
        f.yres = (app.height_ : Int) ∧ f.line_stride_in_bytes = (app.width_ : Int) * 2 ∧
        f.frame_rate_N = 60000 ∧ f.frame_rate_D = 1000 ∧
        f.descriptor = app.ndi_video_frame_.descriptor) ∧
      st.app.ndi_video_frame_.descriptor = app.ndi_video_frame_.descriptor := by
  have hM : UINT_MOD = 4294967296 := rfl
  have hdesc := Initialize_descriptor env app0 app hinit
  have hmod : (app.width_ * 2) % UINT_MOD = app.width_ * 2 := Nat.mod_eq_of_lt (by omega)
  rw [hmod, toInt32_of_lt _ hw, toInt32_of_lt _ hh, toInt32_of_lt _ (by omega)] at hdesc
  obtain ⟨st, new, hrun, htr, hpub, hfin⟩ := NDI_runLoop_frames script 0
    { app := app, useBuffer0 := true, left := none } (Or.inl (by show app.width_ + 1 < _; omega))
    (by show app.height_ < _; omega)
  refine ⟨st, new, hrun, htr, ?_, hfin⟩
  intro n f hf
  have hfd := (hpub n f hf).trans hdesc
  simp only [NDIlib_video_frame_v2_t.descriptor, Prod.mk.injEq] at hfd
  obtain ⟨h1, h2, h3, h4, h5, h6⟩ := hfd
  refine ⟨h3, h1, h2, ?_, h4, h5, hpub n f hf⟩
  rw [h6]; push_cast; ring

/-- C12 on the 2x1 device: both published descriptors are UYVY, 2 x 1, stride 4,
60000/1000. -/
theorem publish_descriptor_is_fixed_witness :
    ∃ st new, NDI.Run [frame2x1, frame2x1] NDI.appReady = some st ∧
      st.app.trace = NDI.appReady.trace ++ new ∧
      (∀ n f, Event.send_send_video_async_v2 n f ∈ new →
        f.FourCC = .NDIlib_FourCC_type_UYVY ∧ f.xres = 2 ∧ f.yres = 1 ∧
        f.line_stride_in_bytes = 4 ∧ f.frame_rate_N = 60000 ∧ f.frame_rate_D = 1000) := by
  obtain ⟨st, new, hrun, htr, hpub, _⟩ := publish_descriptor_is_fixed NDI.envOk NDI.app0
    NDI.appReady [frame2x1, frame2x1] (Prod.ext (by decide) rfl) (by decide) (by decide)
  refine ⟨st, new, hrun, htr, fun n f hf => ?_⟩
  obtain ⟨h1, h2, h3, h4, h5, h6, _⟩ := hpub n f hf
  exact ⟨h1, h2, h3, h4, h5, h6⟩

open NDI in
theorem publish_of_delivers (app : App) (r : ReadResult)
    (hw : app.width_ + 1 < UINT_MOD ∨ app.height_ = 0) (hh : app.height_ < UINT_MOD)
    (hr : r.delivers = true) :
    ∃ st f, Run [r] app = some st ∧
      Event.send_send_video_async_v2 0 f ∈ st.app.trace ∧
      f.descriptor = app.ndi_video_frame_.descriptor := by
  obtain ⟨s, hs⟩ : ∃ s, r.sample = some s := by
    cases h : r.sample with
    | none => simp [ReadResult.delivers, h] at hr
    | some s => exact ⟨s, rfl⟩
  simp only [ReadResult.delivers, hs, Bool.and_eq_true, Bool.not_eq_true'] at hr
  obtain ⟨⟨hok, heos⟩, ⟨hcont, has2D⟩, hlock⟩ := hr
  obtain ⟨app1, hconv, htr, _, _⟩ := convertAndSend_spec 0 true s
    ((((app.emit (.ReadSample 0)).emit (.ConvertToContiguousBuffer 0)).emit
      (.As_IMF2DBuffer2 0)).emit (.Lock2DSize 0)) hw hh
  refine ⟨{ app := app1, useBuffer0 := false, left := none },
    { app.ndi_video_frame_ with p_data := .buffer2_ }, ?_, ?_, rfl⟩
  · simp only [Run, runLoop, hok, heos, hs, hcont, has2D, hlock, hconv, Bool.not_true,
      Bool.false_eq_true, if_false, if_true]
  · show _ ∈ app1.trace
    rw [htr]
    simp [App.emit]

/-- C12 as stated fails for a negotiated width of `2^30` (height 1):
`Initialize` succeeds, each scratch buffer is asked for with `2^31` bytes, which
is what the converter writes, and the frame delivered in the first iteration is
published with a descriptor whose `line_stride_in_bytes` is `-2^31`, not
`width_ * 2 = 2^31`: the `UINT` product `width_ * 2` does not fit the `int`
field. -/
theorem publish_stride_wraps :
    ∃ st f, (NDI.Initialize NDI.envWide NDI.app0).1 = true ∧
      NDI.appWide.width_ = 1073741824 ∧ NDI.appWide.height_ = 1 ∧
      NDI.scratchBytes NDI.appWide.width_ NDI.appWide.height_ = 2147483648 ∧
      NDI.Run [oneRowFrame] NDI.appWide = some st ∧
      Event.send_send_video_async_v2 0 f ∈ st.app.trace ∧
      f.line_stride_in_bytes = -2147483648 := by
  obtain ⟨st, f, hrun, hmem, hdesc⟩ := publish_of_delivers NDI.appWide oneRowFrame
    (by decide) (by decide) (by decide)
  have hs : f.line_stride_in_bytes = NDI.appWide.ndi_video_frame_.line_stride_in_bytes :=
    congrArg (fun d => d.2.2.2.2.2) hdesc
  exact ⟨st, f, by decide, by decide, by decide, by decide, hrun, hmem, hs.trans (by decide)⟩

/-! ## C13: the output depends on the pixel bytes only -/

/-- C13 (amended): for an even width, a height (a `UINT`) and a pitch of at
least `width * 2` (a `LONG`, so below `2^31`) such that the start offset of the
last source row, `(height - 1) * pitch`, is below `2^32`, two calls whose
sources agree on the first `width * 2` bytes of every row both return, and
their destinations agree on every offset below `width * height * 2`, whatever
the padding bytes of the sources and the previous contents of the destinations
are. -/
theorem yuy2_output_depends_on_pixels_only (src1 src2 dst1 dst2 : Mem)
    (width height pitch : Nat)
    (hev : width % 2 = 0) (hh : height < UINT_MOD)
    (hp : width * 2 ≤ pitch) (hlong : pitch < 2147483648)
    (hfit : (height - 1) * pitch < UINT_MOD)
    (hagree : ∀ y j, y < height → j < width * 2 →
      src1 (y * pitch + j) = src2 (y * pitch + j)) :
    ∃ st1 st2,
      YUY2ToUYVYWithPitch src1 dst1 width height (pitch : Int) = some st1 ∧
      YUY2ToUYVYWithPitch src2 dst2 width height (pitch : Int) = some st2 ∧
      ∀ a, a < width * height * 2 → st1.dest a = st2.dest a := by
  have hM : UINT_MOD = 4294967296 := rfl
  have hrowp : ∀ y, y < height → y * pitch < UINT_MOD := fun y hy =>
    Nat.lt_of_le_of_lt (Nat.mul_le_mul_right _ (by omega)) hfit
  have hrow : ∀ y, y < height → y * (width * 2) < UINT_MOD := fun y hy =>
    Nat.lt_of_le_of_lt (Nat.mul_le_mul_left _ hp) (hrowp y hy)
  obtain ⟨st1, hrun1, hinv1⟩ := convert_inv src1 dst1 width height (pitch : Int)
    (fun _ => by omega) hev hh hrow
  obtain ⟨st2, hrun2, hinv2⟩ := convert_inv src2 dst2 width height (pitch : Int)
    (fun _ => by omega) hev hh hrow
  refine ⟨st1, st2, hrun1, hrun2, ?_⟩
  intro a ha
  have hsz : width * height * 2 = height * (width * 2) := by ring
  rw [hsz] at ha
  have hW : 0 < width * 2 := by
    rcases Nat.eq_zero_or_pos (width * 2) with h | h
    · rw [h] at ha; omega
    · exact h
  have hy : a / (width * 2) < height := (Nat.div_lt_iff_lt_mul hW).2 ha
  have hj : swapOff (a % (width * 2)) < width * 2 :=
    swapOff_lt _ _ (by omega) (Nat.mod_lt _ hW)
  rw [hinv1.1 a, hinv2.1 a, if_pos ha, if_pos ha, mulUintLong_nat _ _ (hrowp _ hy)]
  exact hagree _ _ hy hj

/-- C13 at 1280x720 with pitch 2688: two sources that differ in a padding byte,
converted into destinations with different previous contents, give the same
1,843,200 destination bytes. -/
theorem yuy2_output_depends_on_pixels_only_witness :
    ∃ st1 st2,
      YUY2ToUYVYWithPitch scenarioSrc zeroMem 1280 720 2688 = some st1 ∧
      YUY2ToUYVYWithPitch paddedSrc countingMem 1280 720 2688 = some st2 ∧
      ∀ a, a < 1843200 → st1.dest a = st2.dest a :=
  yuy2_output_depends_on_pixels_only scenarioSrc paddedSrc zeroMem countingMem 1280 720 2688
    (by decide) (by decide) (by decide) (by decide) (by decide)
    (fun y j _ hj => by
      have hne : y * 2688 + j ≠ 2600 := by omega
      simp only [paddedSrc, if_neg hne])

/-- C13 as stated fails when a source row offset wraps: for a 2x4 frame with
pitch `2^31 - 1` the two sources agree on the first 4 bytes of every row, yet
row 3 is read from offset `3 * pitch` modulo `2^32`, which lies in the padding
of row 0, and the destinations differ at offset 12. -/
theorem yuy2_output_reads_padding_on_wrap :
    (∀ y j, y < 4 → j < 2 * 2 →
      zeroMem (y * 2147483647 + j) = farPadSrc (y * 2147483647 + j)) ∧
    ∃ st1 st2,
      YUY2ToUYVYWithPitch zeroMem zeroMem 2 4 2147483647 = some st1 ∧
      YUY2ToUYVYWithPitch farPadSrc zeroMem 2 4 2147483647 = some st2 ∧
      12 < 2 * 4 * 2 ∧ st1.dest 12 ≠ st2.dest 12 := by
  constructor
  · intro y j hy hj
    have hne : y * 2147483647 + j ≠ 2147483646 := by omega
    simp only [farPadSrc, zeroMem, if_neg hne]
  · have key1 : (YUY2ToUYVYWithPitch zeroMem zeroMem 2 4 2147483647).map
        (fun st => st.dest 12) = some 0 := by decide
    have key2 : (YUY2ToUYVYWithPitch farPadSrc zeroMem 2 4 2147483647).map
        (fun st => st.dest 12) = some 1 := by decide
    cases h1 : YUY2ToUYVYWithPitch zeroMem zeroMem 2 4 2147483647 with
    | none => rw [h1] at key1; simp at key1
    | some st1 =>
      cases h2 : YUY2ToUYVYWithPitch farPadSrc zeroMem 2 4 2147483647 with
      | none => rw [h2] at key2; simp at key2
      | some st2 =>
        rw [h1] at key1
        rw [h2] at key2
        simp only [Option.map_some', Option.some.injEq] at key1 key2
        refine ⟨st1, st2, rfl, rfl, by decide, ?_⟩
        rw [key1, key2]
        decide

/-! ## C14: odd widths -/

theorem pixelPair_log (srcData : Mem) (y destRow srcRow x : Nat) (st : ConvState) :
    (pixelPair srcData y destRow srcRow x st).log =
      ⟨y, destRow + ((x * 2) % UINT_MOD + 3) % UINT_MOD,
        srcRow + ((x * 2) % UINT_MOD + 2) % UINT_MOD⟩ ::
      ⟨y, destRow + ((x * 2) % UINT_MOD + 2) % UINT_MOD,
        srcRow + ((x * 2) % UINT_MOD + 3) % UINT_MOD⟩ ::
      ⟨y, destRow + ((x * 2) % UINT_MOD + 1) % UINT_MOD, srcRow + (x * 2) % UINT_MOD⟩ ::
      ⟨y, destRow + (x * 2) % UINT_MOD, srcRow + ((x * 2) % UINT_MOD + 1) % UINT_MOD⟩ ::
      st.log := rfl

theorem rowLoop_log_mono (srcData : Mem) (width y destRow srcRow : Nat) :
    ∀ (fuel x : Nat) (st st' : ConvState),
      rowLoop srcData width y destRow srcRow fuel x st = some st' →
      ∀ e ∈ st.log, e ∈ st'.log := by
  intro fuel
  induction fuel with
  | zero => intro x st st' hrun; simp [rowLoop] at hrun
  | succ n ih =>
    intro x st st' hrun e he
    unfold rowLoop at hrun
    by_cases hlt : x < width
    · rw [if_pos hlt] at hrun
      refine ih _ _ _ hrun e ?_
      rw [pixelPair_log]
      exact List.mem_cons_of_mem _ (List.mem_cons_of_mem _ (List.mem_cons_of_mem _
        (List.mem_cons_of_mem _ he)))
    · rw [if_neg hlt] at hrun
      cases hrun
      exact he

theorem rowLoop_last_step (srcData : Mem) (width y destRow srcRow : Nat)
    (hw : width * 2 + 1 < UINT_MOD) (hodd : width % 2 = 1) :
    ∀ (fuel x : Nat) (st : ConvState), x % 2 = 0 → x < width → (width + 1 - x) / 2 < fuel →
      ∃ st', rowLoop srcData width y destRow srcRow fuel x st = some st' ∧
        (⟨y, destRow + width * 2, srcRow + (width * 2 + 1)⟩ : Copy) ∈ st'.log ∧
        (⟨y, destRow + (width * 2 + 1), srcRow + width * 2⟩ : Copy) ∈ st'.log ∧
        ∀ e ∈ st.log, e ∈ st'.log := by
  intro fuel
  induction fuel with
  | zero => intro x st _ _ hf; omega
  | succ n ih =>
    intro x st hx hlt hf
    unfold rowLoop
    rw [if_pos hlt]
    have hmod : (x + 2) % UINT_MOD = x + 2 := Nat.mod_eq_of_lt (by omega)
    rw [hmod]
    by_cases hlast : x + 1 = width
    · cases n with
      | zero => omega
      | succ m =>
        unfold rowLoop
        rw [if_neg (by omega)]
        have e0 : (x * 2) % UINT_MOD = x * 2 := Nat.mod_eq_of_lt (by omega)
        have e2 : (x * 2 + 2) % UINT_MOD = width * 2 := by
          rw [Nat.mod_eq_of_lt (by omega)]; omega
        have e3 : (x * 2 + 3) % UINT_MOD = width * 2 + 1 := by
          rw [Nat.mod_eq_of_lt (by omega)]; omega
        refine ⟨_, rfl, ?_, ?_, ?_⟩
        · rw [pixelPair_log, e0, e2, e3]
          exact List.mem_cons_of_mem _ (List.mem_cons_self _ _)
        · rw [pixelPair_log, e0, e2, e3]
          exact List.mem_cons_self _ _
        · intro e he
          rw [pixelPair_log]
          exact List.mem_cons_of_mem _ (List.mem_cons_of_mem _ (List.mem_cons_of_mem _
            (List.mem_cons_of_mem _ he)))
    · obtain ⟨st', hrun, h1, h2, hmono⟩ := ih (x + 2)
        (pixelPair srcData y destRow srcRow x st) (by omega) (by omega) (by omega)
      refine ⟨st', hrun, h1, h2, ?_⟩
      intro e he
      refine hmono e ?_
      rw [pixelPair_log]
      exact List.mem_cons_of_mem _ (List.mem_cons_of_mem _ (List.mem_cons_of_mem _
        (List.mem_cons_of_mem _ he)))

theorem frameLoop_last_steps (srcData : Mem) (width height : Nat) (pitch : Int)
    (hw : width * 2 + 1 < UINT_MOD) (hodd : width % 2 = 1) (hh : height < UINT_MOD)
    (hrow : ∀ y, y < height → y * (width * 2) < UINT_MOD) :
    ∀ (fuel y : Nat) (st : ConvState), y ≤ height → height - y < fuel →
      ∃ st', frameLoop srcData width height pitch fuel y st = some st' ∧
        (∀ y', y ≤ y' → y' < height →
          (⟨y', y' * (width * 2) + width * 2, mulUintLong y' pitch + (width * 2 + 1)⟩ : Copy)
            ∈ st'.log ∧
          (⟨y', y' * (width * 2) + (width * 2 + 1), mulUintLong y' pitch + width * 2⟩ : Copy)
            ∈ st'.log) ∧
        ∀ e ∈ st.log, e ∈ st'.log := by
  intro fuel
  induction fuel with
  | zero => intro y st _ hf; omega
  | succ n ih =>
    intro y st hle hf
    unfold frameLoop
    by_cases hlt : y < height
    · rw [if_pos hlt]
      simp only [destRow_eq y width (hrow y hlt)]
      obtain ⟨st1, hrun1, ha, hb, hmono1⟩ := rowLoop_last_step srcData width y
        (y * (width * 2)) (mulUintLong y pitch) hw hodd UINT_MOD 0 st (by decide)
        (by omega) (by omega)
      rw [hrun1]
      have hmod : (y + 1) % UINT_MOD = y + 1 := Nat.mod_eq_of_lt (by omega)
      simp only [hmod]
      obtain ⟨st', hrun, hrows, hmono⟩ := ih (y + 1) st1 hlt (by omega)
      refine ⟨st', hrun, ?_, fun e he => hmono e (hmono1 e he)⟩
      intro y' hy' hy'h
      by_cases heq : y' = y
      · subst heq
        exact ⟨hmono _ ha, hmono _ hb⟩
      · exact hrows y' (by omega) hy'h
    · rw [if_neg hlt]
      exact ⟨st, rfl, fun y' h1 h2 => by omega, fun e he => he⟩

/-- C14 (amended): for an odd width and a positive height whose frame size
`width * height * 2` is below `2^32`, the call returns, and in every row `y`
the inner-loop step `x = width - 1` assigns the destination offsets
`y * width * 2 + 2 * width` (from source row byte `2 * width + 1`) and
`y * width * 2 + 2 * width + 1` (from source row byte `2 * width`), two bytes
past the row's `width * 2` bytes.  On the last row these are the offsets
`width * height * 2` and `width * height * 2 + 1`, which are not below the
`width * height * 2` bytes that `CreateBuffers` asks for. -/
theorem yuy2_odd_width_writes_past_row (srcData destData : Mem) (width height : Nat)
    (pitch : Int) (hodd : width % 2 = 1) (hh : 0 < height)
    (hfit : width * height * 2 < UINT_MOD) :
    ∃ st, YUY2ToUYVYWithPitch srcData destData width height pitch = some st ∧
      (∀ y, y < height →
        (∃ e ∈ st.log, e.row = y ∧ e.destOff = y * width * 2 + 2 * width ∧
          e.srcOff = mulUintLong y pitch + (2 * width + 1)) ∧
        (∃ e ∈ st.log, e.row = y ∧ e.destOff = y * width * 2 + 2 * width + 1 ∧
          e.srcOff = mulUintLong y pitch + 2 * width)) ∧
      (∃ e ∈ st.log, e.destOff = width * height * 2) ∧
      (∃ e ∈ st.log, e.destOff = width * height * 2 + 1) ∧
      NDI.scratchBytes width height = width * height * 2 := by
  have hM : UINT_MOD = 4294967296 := rfl
  have hsz : width * height * 2 = height * (width * 2) := by ring
  have hrow : ∀ y, y < height → y * (width * 2) < UINT_MOD := fun y hy => by
    have := row_lt_frame (width * 2) height y 0 hy (by omega)
    omega
  have hw2 : width * 2 + 1 < UINT_MOD := by
    have := row_lt_frame (width * 2) height 0 (width * 2 - 1) hh (by omega)
    omega
  have hhM : height < UINT_MOD := by
    have : height * 1 ≤ height * (width * 2) := Nat.mul_le_mul_left _ (by omega)
    omega
  obtain ⟨st, hrun, hrows, _⟩ := frameLoop_last_steps srcData width height pitch hw2 hodd
    hhM hrow UINT_MOD 0 ⟨destData, []⟩ (Nat.zero_le _) (by omega)
  have hlast := hrows (height - 1) (Nat.zero_le _) (by omega)
  have hlastoff : (height - 1) * (width * 2) + width * 2 = width * height * 2 := by
    have h1 : (height - 1 + 1) * (width * 2) = (height - 1) * (width * 2) + width * 2 := by
      ring
    have h2 : height - 1 + 1 = height := by omega
    rw [h2] at h1
    omega
  refine ⟨st, hrun, ?_, ?_, ?_, ?_⟩
  · intro y hy
    obtain ⟨ha, hb⟩ := hrows y (Nat.zero_le _) hy
    have e1 : y * width * 2 = y * (width * 2) := by ring
    exact ⟨⟨_, ha, rfl, by simp only [e1]; omega, by simp only []; omega⟩,
      ⟨_, hb, rfl, by simp only [e1]; omega, by simp only []; omega⟩⟩
  · exact ⟨_, hlast.1, by simp only []; omega⟩
  · exact ⟨_, hlast.2, by simp only []; omega⟩
  · unfold NDI.scratchBytes
    have h1 : width * height < UINT_MOD := by omega
    rw [Nat.mod_eq_of_lt h1, Nat.mod_eq_of_lt hfit]

/-- C14 on a 3x2 frame: the destination offsets 12 and 13 are written, and
`CreateBuffers` asks for 12 bytes. -/
theorem yuy2_odd_width_writes_past_row_witness :
    ∃ st, YUY2ToUYVYWithPitch scenarioSrc zeroMem 3 2 6 = some st ∧
      (∃ e ∈ st.log, e.destOff = 12) ∧ (∃ e ∈ st.log, e.destOff = 13) ∧
      NDI.scratchBytes 3 2 = 12 := by
  obtain ⟨st, hrun, _, h1, h2, h3⟩ := yuy2_odd_width_writes_past_row scenarioSrc zeroMem 3 2 6
    (by decide) (by decide) (by decide)
  exact ⟨st, hrun, h1, h2, h3⟩

/-- C14 as stated fails when destination offsets wrap: for a 3 x 2^31 frame
(`width * height * 2 = 3 * 2^32`) every destination row offset is reduced
modulo `2^32`, so no execution writes offset `width * height * 2`. -/
theorem yuy2_odd_width_wraps :
    ¬ ∃ st, YUY2ToUYVYWithPitch zeroMem zeroMem 3 2147483648 6 = some st ∧
      ∃ e ∈ st.log, e.destOff = 3 * 2147483648 * 2 := by
  rintro ⟨st, hrun, e, he, hoff⟩
  have hb := frameLoop_destOff_lt zeroMem 3 2147483648 6 UINT_MOD 0 ⟨zeroMem, []⟩ st hrun
    (by intro e he; simp at he) e he
  have hM : UINT_MOD = 4294967296 := rfl
  omega

/-! ## C15: the negotiated subtype is not validated -/

/-- C15: `SetupCapture` never looks at the subtype GUID that
`GetGUID(MF_MT_SUBTYPE)` stores in `format`.  In both programs, two
environments that differ only in that value give the same return value and the
same object (so the same `width_` and `height_`); `Initialize` and, in the
network-sink program, the whole of `main` are the same as well, and for every
subtype value a delivered frame is handed to `YUY2ToUYVYWithPitch`. -/
theorem subtype_is_not_validated (env : CaptureEnv) (g : Nat) :
    (∀ app : NDI.App,
      NDI.SetupCapture { env with format := g } app = NDI.SetupCapture env app) ∧
    (∀ app : DX11.App,
      DX11.SetupCapture { env with format := g } app = DX11.SetupCapture env app) ∧
    (∀ (e : NDI.Env) (app : NDI.App),
      NDI.Initialize { e with capture := { e.capture with format := g } } app
        = NDI.Initialize e app) ∧
    (∀ (e : DX11.Env) (app : DX11.App),
      DX11.Initialize { e with capture := { e.capture with format := g } } app
        = DX11.Initialize e app) ∧
    (∀ (e : NDI.Env) (script : List ReadResult) (app : NDI.App),
      NDI.main { e with capture := { e.capture with format := g } } script app
        = NDI.main e script app) ∧
    (NDI.main { NDI.envOk with capture := { NDI.envOk.capture with format := g } }
        [frame2x1, endOfStreamAnswer] NDI.app0).map
      (fun p => (p.1, convertIters p.2.trace)) = some (0, [0]) := by
  have h1 : ∀ (c : CaptureEnv) (app : NDI.App),
      NDI.SetupCapture { c with format := g } app = NDI.SetupCapture c app :=
    fun _ _ => rfl
  have h2 : ∀ (c : CaptureEnv) (app : DX11.App),
      DX11.SetupCapture { c with format := g } app = DX11.SetupCapture c app :=
    fun _ _ => rfl
  have h3 : ∀ (e : NDI.Env) (app : NDI.App),
      NDI.Initialize { e with capture := { e.capture with format := g } } app
        = NDI.Initialize e app := by
    intro e app
    simp only [NDI.Initialize, NDI.SetupMediaFoundation, NDI.CreateBuffers, h1]
  have h4 : ∀ (e : DX11.Env) (app : DX11.App),
      DX11.Initialize { e with capture := { e.capture with format := g } } app
        = DX11.Initialize e app := by
    intro e app
    simp only [DX11.Initialize, DX11.SetupMediaFoundation, h2]
  have h5 : ∀ (e : NDI.Env) (script : List ReadResult) (app : NDI.App),
      NDI.main { e with capture := { e.capture with format := g } } script app
        = NDI.main e script app := by
    intro e script app
    simp only [NDI.main, h3]
  refine ⟨h1 env, h2 env, h3, h4, h5, ?_⟩
  rw [h5]
  decide

end WebcamApp
